import Mathlib

/-!
# GearVRf scene objects: `scene_object.cpp`

A shallow embedding of `gvr::SceneObject` (GVRf/Framework/jni/objects/scene_object.cpp).

* A `SceneObject*` is an `ObjId`, a component pointer (`Transform*`, `RenderData*`,
  `Camera*`, `CameraRig*`, `EyePointeeHolder*`) is a `CompId`; a pointer that may be
  `NULL` is an `Option`.
* The heap is a record of maps, one per member variable: member `x_` of the object
  at address `o` is `s.x_ o`. Of the components the heap keeps what the source reads
  and writes through their accessors: the owner back-reference
  (`owner_object()`, `set_owner_object`, `removeOwnerObject`), the model matrix and
  position of a transform, the mesh volume and camera distance of a render payload,
  and whether `pass(0)->material()` is set.
* `float` is an exact linearly ordered commutative ring `R`; `int vis_count_` is an
  `Int` (the counter never leaves `[-check_frames_ - 1, check_frames_ + 1]`).
* Loops and recursions over the pointer graph (`dirtyHierarchicalBoundingVolume`,
  the ancestor loop of `addChildObject`, `getBoundingVolume`) take fuel; running
  out of fuel is a result of its own, distinct from every result of the code.
* The unsigned size type of `children_.size()` has `w` bits: an `int` compared with it or
  used as an index is taken `% 2^w`; the size returned as an `int` is wrapped to 32 bits.
* `planeDistanceToPoint` and `sphereInFrustum` have no caller (the calls are commented
  out in the source) and are not embedded; `name_`, `in_frustum_` and the occlusion
  query members take no part in the functions embedded here.
-/

namespace GVRf

/-- Address of a `SceneObject`. -/
abbrev ObjId := Nat

/-- Address of a component (`Transform`, `RenderData`, `Camera`, `CameraRig`, `EyePointeeHolder`). -/
abbrev CompId := Nat

/-- The `glm::vec3` of the source, with exact coordinates. -/
structure Vec3 (R : Type) where
  x : R
  y : R
  z : R
deriving DecidableEq

/-- Modelled from the spec: the `BoundingVolume` value type (`bounding_volume.h` is not
among the sources), "min/max corners, center, radius". The radius is read only by
`sphereInFrustum`, which no call reaches, and is left out. -/
structure BoundingVolume (R : Type) where
  min_corner : Vec3 R
  max_corner : Vec3 R
  center : Vec3 R
deriving DecidableEq

/-- Modelled from the spec: the operations of the absent collaborators that
`scene_object.cpp` calls, taken as parameters. `bvTransform v m` is
`BoundingVolume::transform(v, m)`, `bvExpand v w` is `v.expand(w)`, and
`check_frames_` is the static threshold of `scene_object.h`. -/
structure Collab (R M : Type) where
  bvTransform : BoundingVolume R → M → BoundingVolume R
  bvExpand : BoundingVolume R → BoundingVolume R → BoundingVolume R
  check_frames_ : Int

/-- Result of running a member function: a normal return with the value and the heap,
a C++ `throw` with the message and the heap at the throw, a dereference of `NULL`,
or fuel exhausted. -/
inductive Outcome (σ α : Type) where
  | ret (a : α) (s : σ)
  | threw (e : String) (s : σ)
  | nullDeref
  | noFuel

/-- The heap. Fields `transform_` to `mesh_bounding_volume` are the member variables of
every `SceneObject`. The remaining fields are modelled from the spec, the component
classes being absent from the sources: "each attachment type stores a back-reference to
its owning node" (`transform_owner`, `render_data_owner`, `camera_owner`,
`camera_rig_owner`, `eye_pointee_holder_owner`); a transform has a "current world-model
matrix" (`model_matrix`, stale when `model_matrix_valid` is false) and a "world-space
position"; a render payload has an optional mesh with "a local-space bounding volume"
(`mesh`), "a material-presence check on render pass 0" (`material0`) and the stored
"camera distance". -/
structure Scene (R M : Type) where
  transform_ : ObjId → Option CompId
  render_data_ : ObjId → Option CompId
  camera_ : ObjId → Option CompId
  camera_rig_ : ObjId → Option CompId
  eye_pointee_holder_ : ObjId → Option CompId
  parent_ : ObjId → Option ObjId
  children_ : ObjId → List ObjId
  visible_ : ObjId → Bool
  vis_count_ : ObjId → Int
  lod_min_range_ : ObjId → R
  lod_max_range_ : ObjId → R
  using_lod_ : ObjId → Bool
  bounding_volume_dirty_ : ObjId → Bool
  transformed_bounding_volume_ : ObjId → BoundingVolume R
  mesh_bounding_volume : ObjId → BoundingVolume R
  transform_owner : CompId → Option ObjId
  model_matrix_valid : CompId → Bool
  model_matrix : CompId → M
  position : CompId → Vec3 R
  render_data_owner : CompId → Option ObjId
  mesh : CompId → Option (BoundingVolume R)
  material0 : CompId → Bool
  camera_distance : CompId → R
  camera_owner : CompId → Option ObjId
  camera_rig_owner : CompId → Option ObjId
  eye_pointee_holder_owner : CompId → Option ObjId

section Model

variable {R M : Type}

/-- The heap right after construction of every object: `SceneObject::SceneObject()` sets
`children_()`, `visible_(true)`, `vis_count_(0)`, `lod_min_range_(0)`,
`lod_max_range_(MAXFLOAT)`, `using_lod_(false)`, `bounding_volume_dirty_(true)`;
the pointer members are `NULL`, the two volumes are default constructed (`bv0`),
and no component has an owner. -/
def Scene.fresh [Zero R] (MAXFLOAT : R) (bv0 : BoundingVolume R) (m0 : M) : Scene R M where
  transform_ := fun _ => none
  render_data_ := fun _ => none
  camera_ := fun _ => none
  camera_rig_ := fun _ => none
  eye_pointee_holder_ := fun _ => none
  parent_ := fun _ => none
  children_ := fun _ => []
  visible_ := fun _ => true
  vis_count_ := fun _ => 0
  lod_min_range_ := fun _ => 0
  lod_max_range_ := fun _ => MAXFLOAT
  using_lod_ := fun _ => false
  bounding_volume_dirty_ := fun _ => true
  transformed_bounding_volume_ := fun _ => bv0
  mesh_bounding_volume := fun _ => bv0
  transform_owner := fun _ => none
  model_matrix_valid := fun _ => false
  model_matrix := fun _ => m0
  position := fun _ => ⟨0, 0, 0⟩
  render_data_owner := fun _ => none
  mesh := fun _ => none
  material0 := fun _ => false
  camera_distance := fun _ => 0
  camera_owner := fun _ => none
  camera_rig_owner := fun _ => none
  eye_pointee_holder_owner := fun _ => none

/-- `SceneObject::dirtyHierarchicalBoundingVolume()` on object `this`: return at once when
the flag is set, else set it and continue with the parent, if any. -/
def dirtyHierarchicalBoundingVolume : Nat → Scene R M → ObjId → Option (Scene R M)
  | 0, _, _ => none
  | fuel + 1, s, this =>
    if s.bounding_volume_dirty_ this then some s
    else
      let s1 := { s with bounding_volume_dirty_ := Function.update s.bounding_volume_dirty_ this true }
      match s1.parent_ this with
      | none => some s1
      | some p => dirtyHierarchicalBoundingVolume fuel s1 p

/-- `SceneObject::detachTransform()`. -/
def detachTransform (fuel : Nat) (s : Scene R M) (this : ObjId) : Option (Scene R M) :=
  let s1 := match s.transform_ this with
    | some t =>
      { s with transform_owner := Function.update s.transform_owner t none,
               transform_ := Function.update s.transform_ this none }
    | none => s
  dirtyHierarchicalBoundingVolume fuel s1 this

/-- `SceneObject::detachRenderData()`. -/
def detachRenderData (fuel : Nat) (s : Scene R M) (this : ObjId) : Option (Scene R M) :=
  let s1 := match s.render_data_ this with
    | some r =>
      { s with render_data_owner := Function.update s.render_data_owner r none,
               render_data_ := Function.update s.render_data_ this none }
    | none => s
  dirtyHierarchicalBoundingVolume fuel s1 this

/-- `SceneObject::attachTransform(self, transform)`. The previous owner of `transform`
has its render data detached (`owner_object->detachRenderData()`). -/
def attachTransform (fuel : Nat) (s : Scene R M) (this self : ObjId) (transform : CompId) :
    Option (Scene R M) :=
  (match s.transform_ this with
    | some _ => detachTransform fuel s this
    | none => some s).bind fun s1 =>
  (match s1.transform_owner transform with
    | some owner_object => detachRenderData fuel s1 owner_object
    | none => some s1).bind fun s2 =>
  let s3 := { s2 with transform_ := Function.update s2.transform_ this (some transform) }
  let s4 := { s3 with transform_owner := Function.update s3.transform_owner transform (some self) }
  dirtyHierarchicalBoundingVolume fuel s4 this

/-- `SceneObject::attachRenderData(self, render_data)`. -/
def attachRenderData (fuel : Nat) (s : Scene R M) (this self : ObjId) (render_data : CompId) :
    Option (Scene R M) :=
  (match s.render_data_ this with
    | some _ => detachRenderData fuel s this
    | none => some s).bind fun s1 =>
  (match s1.render_data_owner render_data with
    | some owner_object => detachRenderData fuel s1 owner_object
    | none => some s1).bind fun s2 =>
  let s3 := { s2 with render_data_ := Function.update s2.render_data_ this (some render_data) }
  let s4 := { s3 with render_data_owner := Function.update s3.render_data_owner render_data (some self) }
  dirtyHierarchicalBoundingVolume fuel s4 this

/-- `SceneObject::detachCamera()`. -/
def detachCamera (s : Scene R M) (this : ObjId) : Scene R M :=
  match s.camera_ this with
  | some c =>
    { s with camera_owner := Function.update s.camera_owner c none,
             camera_ := Function.update s.camera_ this none }
  | none => s

/-- `SceneObject::detachCameraRig()`. -/
def detachCameraRig (s : Scene R M) (this : ObjId) : Scene R M :=
  match s.camera_rig_ this with
  | some c =>
    { s with camera_rig_owner := Function.update s.camera_rig_owner c none,
             camera_rig_ := Function.update s.camera_rig_ this none }
  | none => s

/-- `SceneObject::detachEyePointeeHolder()`. -/
def detachEyePointeeHolder (s : Scene R M) (this : ObjId) : Scene R M :=
  match s.eye_pointee_holder_ this with
  | some c =>
    { s with eye_pointee_holder_owner := Function.update s.eye_pointee_holder_owner c none,
             eye_pointee_holder_ := Function.update s.eye_pointee_holder_ this none }
  | none => s

/-- Modelled from the spec: `Transform::invalidate(false)` of the absent `transform.h`,
"forces recomputation of its world matrix on next use": the matrix is marked stale. -/
def invalidate (s : Scene R M) (t : CompId) : Scene R M :=
  { s with model_matrix_valid := Function.update s.model_matrix_valid t false }

/-- The text of the exception thrown by `addChildObject`. -/
def cycleError : String :=
  "SceneObject::addChildObject() : cycle of scene objects is not allowed."

/-- The ancestor loop of `addChildObject`:
`for (parent = parent_; parent; parent = parent->parent_) if (child == parent) throw`.
`some true` when the loop throws, `some false` when it runs to `NULL`. -/
def cycleLoop (s : Scene R M) (child : ObjId) : Nat → Option ObjId → Option Bool
  | 0, _ => none
  | _ + 1, none => some false
  | fuel + 1, some parent =>
    if child = parent then some true else cycleLoop s child fuel (s.parent_ parent)

/-- `SceneObject::addChildObject(self, child)`. -/
def addChildObject (fuel : Nat) (s : Scene R M) (this self child : ObjId) :
    Outcome (Scene R M) Unit :=
  match cycleLoop s child fuel (s.parent_ this) with
  | none => .noFuel
  | some true => .threw cycleError s
  | some false =>
    let s1 := { s with children_ := Function.update s.children_ this (s.children_ this ++ [child]) }
    let s2 := { s1 with parent_ := Function.update s1.parent_ child (some self) }
    let s3 := match s2.transform_ child with
      | some t => invalidate s2 t
      | none => s2
    match dirtyHierarchicalBoundingVolume fuel s3 this with
    | none => .noFuel
    | some s4 => .ret () s4

/-- `SceneObject::removeChildObject(child)`: `std::remove` erases every occurrence. -/
def removeChildObject (fuel : Nat) (s : Scene R M) (this child : ObjId) : Option (Scene R M) :=
  let s1 :=
    if s.parent_ child = some this then
      let s0 := { s with
        children_ := Function.update s.children_ this ((s.children_ this).filter (· ≠ child)) }
      { s0 with parent_ := Function.update s0.parent_ child none }
    else s
  let s2 := match s1.transform_ child with
    | some t => invalidate s1 t
    | none => s1
  dirtyHierarchicalBoundingVolume fuel s2 this

/-- `SceneObject::getChildrenCount()`: `children_.size()` returned as a 32-bit `int`. -/
def getChildrenCount (s : Scene R M) (this : ObjId) : Int :=
  (((s.children_ this).length : Int) + 2 ^ 31) % 2 ^ 32 - 2 ^ 31

/-- The text of the exception thrown by `getChildByIndex`. -/
def indexError : String := "SceneObject::getChildByIndex() : Out of index."

/-- `SceneObject::getChildByIndex(index)`. In `index < children_.size()` and in
`children_[index]` the `int` index is converted to the unsigned type of the size, of `w`
bits: the value compared and used is `index % 2^w`. -/
def getChildByIndex (w : Nat) (s : Scene R M) (this : ObjId) (index : Int) :
    Outcome (Scene R M) ObjId :=
  let u := (index % 2 ^ w).toNat
  if h : u < (s.children_ this).length then .ret ((s.children_ this).get ⟨u, h⟩) s
  else .threw indexError s

/-- `SceneObject::isColliding(scene_object)`. The transform looked up is that of
`render_data()->owner_object()`, and `render_data()`, its owner and `mesh()` are
dereferenced without a check.
Modelled from the spec: `getTransformedBoundingBoxInfo` is `Mesh::getTransformedBoundingBoxInfo`
of the absent `mesh.h`, taken as a parameter; from the mesh volume and the model matrix
it fills the six floats of the "transformed mesh bounding box", entries 0 to 2 the
minimum and 3 to 5 the maximum on x, y, z. -/
def isColliding [LinearOrderedCommRing R]
    (getTransformedBoundingBoxInfo : BoundingVolume R → M → Fin 6 → R) (s : Scene R M)
    (this scene_object : ObjId) : Outcome (Scene R M) Bool :=
  match s.render_data_ this with
  | none => .nullDeref
  | some rd =>
    match s.render_data_owner rd with
    | none => .nullDeref
    | some owner =>
      match s.transform_ owner with
      | none => .ret false s
      | some t =>
        match s.mesh rd with
        | none => .nullDeref
        | some mesh =>
          let this_object_bounding_box := getTransformedBoundingBoxInfo mesh (s.model_matrix t)
          match s.render_data_ scene_object with
          | none => .nullDeref
          | some rd2 =>
            match s.render_data_owner rd2 with
            | none => .nullDeref
            | some owner2 =>
              match s.transform_ owner2 with
              | none => .ret false s
              | some t2 =>
                match s.mesh rd2 with
                | none => .nullDeref
                | some mesh2 =>
                  let check_object_bounding_box :=
                    getTransformedBoundingBoxInfo mesh2 (s.model_matrix t2)
                  .ret (decide (this_object_bounding_box 3 > check_object_bounding_box 0
                    ∧ this_object_bounding_box 0 < check_object_bounding_box 3
                    ∧ this_object_bounding_box 4 > check_object_bounding_box 1
                    ∧ this_object_bounding_box 1 < check_object_bounding_box 4
                    ∧ this_object_bounding_box 5 > check_object_bounding_box 2
                    ∧ this_object_bounding_box 2 < check_object_bounding_box 5)) s

/-- `SceneObject::set_visible(visibility)` on the pair `(visible_, vis_count_)`. -/
def set_visible (check_frames_ : Int) (st : Bool × Int) (visibility : Bool) : Bool × Int :=
  let vis_count_ := if visibility = true then st.2 + 1 else st.2 - 1
  if vis_count_ > check_frames_ then (true, 0)
  else if vis_count_ < (-1 * check_frames_) then (false, 0)
  else (st.1, vis_count_)

/-- `SceneObject::set_visible(visibility)` on the heap. -/
def Scene.set_visible (env : Collab R M) (s : Scene R M) (this : ObjId) (visibility : Bool) :
    Scene R M :=
  let r := GVRf.set_visible env.check_frames_ (s.visible_ this, s.vis_count_ this) visibility
  { s with visible_ := Function.update s.visible_ this r.1,
           vis_count_ := Function.update s.vis_count_ this r.2 }

/-- The body of the plane loop of `SceneObject::is_cube_in_frustum`, for the planes still
to visit: a corner with `frustum[p] . corner + frustum[p][3] > 0` is a `continue`, a
plane with no such corner is `return false`, the end of the loop is `return true`. -/
def cubeLoop [LinearOrderedCommRing R] (frustum : Fin 6 → Fin 4 → R) (bounding_volume : BoundingVolume R) :
    List (Fin 6) → Bool
  | [] => true
  | p :: ps =>
    let Xmin := bounding_volume.min_corner.x
    let Ymin := bounding_volume.min_corner.y
    let Zmin := bounding_volume.min_corner.z
    let Xmax := bounding_volume.max_corner.x
    let Ymax := bounding_volume.max_corner.y
    let Zmax := bounding_volume.max_corner.z
    if frustum p 0 * Xmin + frustum p 1 * Ymin + frustum p 2 * Zmin + frustum p 3 > 0 then
      cubeLoop frustum bounding_volume ps
    else if frustum p 0 * Xmax + frustum p 1 * Ymin + frustum p 2 * Zmin + frustum p 3 > 0 then
      cubeLoop frustum bounding_volume ps
    else if frustum p 0 * Xmin + frustum p 1 * Ymax + frustum p 2 * Zmin + frustum p 3 > 0 then
      cubeLoop frustum bounding_volume ps
    else if frustum p 0 * Xmax + frustum p 1 * Ymax + frustum p 2 * Zmin + frustum p 3 > 0 then
      cubeLoop frustum bounding_volume ps
    else if frustum p 0 * Xmin + frustum p 1 * Ymin + frustum p 2 * Zmax + frustum p 3 > 0 then
      cubeLoop frustum bounding_volume ps
    else if frustum p 0 * Xmax + frustum p 1 * Ymin + frustum p 2 * Zmax + frustum p 3 > 0 then
      cubeLoop frustum bounding_volume ps
    else if frustum p 0 * Xmin + frustum p 1 * Ymax + frustum p 2 * Zmax + frustum p 3 > 0 then
      cubeLoop frustum bounding_volume ps
    else if frustum p 0 * Xmax + frustum p 1 * Ymax + frustum p 2 * Zmax + frustum p 3 > 0 then
      cubeLoop frustum bounding_volume ps
    else false

/-- `SceneObject::is_cube_in_frustum(frustum, bounding_volume)`: `for (int p = 0; p < 6; p++)`. -/
def is_cube_in_frustum [LinearOrderedCommRing R] (frustum : Fin 6 → Fin 4 → R)
    (bounding_volume : BoundingVolume R) : Bool :=
  cubeLoop frustum bounding_volume (List.finRange 6)

/-- The children loop of `getBoundingVolume`:
`transformed_bounding_volume_.expand((*it)->getBoundingVolume())` for each child in order;
`getBV` is the recursive call. -/
def expandLoop (env : Collab R M)
    (getBV : Scene R M → ObjId → Outcome (Scene R M) (BoundingVolume R)) (this : ObjId) :
    List ObjId → Scene R M → Outcome (Scene R M) Unit
  | [], s => .ret () s
  | c :: cs, s =>
    match getBV s c with
    | .ret v s1 =>
      expandLoop env getBV this cs
        { s1 with
          transformed_bounding_volume_ :=
            Function.update s1.transformed_bounding_volume_ this
              (env.bvExpand (s1.transformed_bounding_volume_ this) v) }
    | .threw e s1 => .threw e s1
    | .nullDeref => .nullDeref
    | .noFuel => .noFuel

/-- Step 1 of `getBoundingVolume`: with render data and a mesh, `mesh_bounding_volume` is
the mesh volume transformed by `transform_->getModelMatrix()` and is copied into
`transformed_bounding_volume_`; `none` is the dereference of a `NULL` `transform_`.
Without a mesh nothing is written. -/
def meshStep (env : Collab R M) (s : Scene R M) (this : ObjId) : Option (Scene R M) :=
  match s.render_data_ this with
  | some rd =>
    match s.mesh rd with
    | some meshVolume =>
      match s.transform_ this with
      | some t =>
        let s1 := { s with
          mesh_bounding_volume :=
            Function.update s.mesh_bounding_volume this
              (env.bvTransform meshVolume (s.model_matrix t)) }
        some { s1 with
          transformed_bounding_volume_ :=
            Function.update s1.transformed_bounding_volume_ this (s1.mesh_bounding_volume this) }
      | none => none
    | none => some s
  | none => some s

/-- `SceneObject::getBoundingVolume()`: the cached volume when the flag is clear, else
step 1, the children loop, `bounding_volume_dirty_ = false`, and the member. -/
def getBoundingVolume (env : Collab R M) :
    Nat → Scene R M → ObjId → Outcome (Scene R M) (BoundingVolume R)
  | 0, _, _ => .noFuel
  | fuel + 1, s, this =>
    if s.bounding_volume_dirty_ this = false then
      .ret (s.transformed_bounding_volume_ this) s
    else
      match meshStep env s this with
      | none => .nullDeref
      | some s1 =>
        match expandLoop env (fun s c => getBoundingVolume env fuel s c) this (s1.children_ this) s1 with
        | .ret _ s2 =>
          let s3 := { s2 with
            bounding_volume_dirty_ := Function.update s2.bounding_volume_dirty_ this false }
          .ret (s3.transformed_bounding_volume_ this) s3
        | .threw e s2 => .threw e s2
        | .nullDeref => .nullDeref
        | .noFuel => .noFuel

/-- Modelled from the spec: `inLODRange(distance)` of the absent `scene_object.h`, "If LOD
is enabled and this squared distance falls outside `[lodMinRange, lodMaxRange)`" the
object is out of range. -/
def inLODRange [LinearOrderedCommRing R] (s : Scene R M) (this : ObjId) (distance : R) : Bool :=
  if s.using_lod_ this then
    decide (s.lod_min_range_ this ≤ distance ∧ distance < s.lod_max_range_ this)
  else true

/-- `glm::dot(difference, difference)` for the `vec4` difference of `(center, 1.0f)` and
`(camera_position, 1.0f)`. -/
def cameraDistance [LinearOrderedCommRing R] (center camera_position : Vec3 R) : R :=
  (center.x - camera_position.x) * (center.x - camera_position.x)
    + (center.y - camera_position.y) * (center.y - camera_position.y)
    + (center.z - camera_position.z) * (center.z - camera_position.z)
    + (1 - 1) * (1 - 1)

/-- Steps 2 to 4 of `SceneObject::frustumCull`, the code after the test of the
hierarchical volume: `s` is the heap after `getBoundingVolume()`, `bounding_volume_` the
copy of its result and `is_inside` the local of that name. -/
def cullAfterBoundsTest [LinearOrderedCommRing R] (s : Scene R M) (this : ObjId) (camera : CompId)
    (frustum : Fin 6 → Fin 4 → R) (bounding_volume_ : BoundingVolume R) (is_inside : Bool) :
    Outcome (Scene R M) Int :=
  match s.render_data_ this with
  | none => .ret 1 s
  | some rd =>
    if s.material0 rd = false then .ret 1 s
    else
      match s.camera_owner camera with
      | none => .nullDeref
      | some owner =>
        match s.transform_ owner with
        | none => .nullDeref
        | some t =>
          let distance := cameraDistance bounding_volume_.center (s.position t)
          let s2 := { s with camera_distance := Function.update s.camera_distance rd distance }
          if inLODRange s2 this distance = false then .ret 0 s2
          else
            let is_inside2 :=
              if (s2.children_ this).length > 0 then
                is_cube_in_frustum frustum (s2.mesh_bounding_volume this)
              else is_inside
            .ret (if is_inside2 then 2 else 1) s2

/-- `SceneObject::frustumCull(camera, frustum)`. `bounding_volume_` is a copy of the
volume returned by `getBoundingVolume()`; `camera->owner_object()->transform()` is
dereferenced without a check. -/
def frustumCull [LinearOrderedCommRing R] (env : Collab R M) (fuel : Nat) (s : Scene R M)
    (this : ObjId) (camera : CompId) (frustum : Fin 6 → Fin 4 → R) : Outcome (Scene R M) Int :=
  if s.visible_ this = false then .ret 0 s
  else
    match getBoundingVolume env fuel s this with
    | .ret bounding_volume_ s1 =>
      let is_inside := is_cube_in_frustum frustum bounding_volume_
      if is_inside = false then .ret 0 s1
      else cullAfterBoundsTest s1 this camera frustum bounding_volume_ is_inside
    | .threw e s1 => .threw e s1
    | .nullDeref => .nullDeref
    | .noFuel => .noFuel

end Model

end GVRf

/-! ## Definitions used to state the properties -/

namespace GVRf

section Statements

variable {R M : Type}

/-- Net count of a sequence of votes: trues minus falses. -/
def netCount : List Bool → Int
  | [] => 0
  | b :: bs => (if b = true then 1 else -1) + netCount bs

/-- A sequence of `set_visible` calls on object `this`, first vote first. -/
def Scene.votes (env : Collab R M) (s : Scene R M) (this : ObjId) (bs : List Bool) : Scene R M :=
  bs.foldl (fun s b => s.set_visible env this b) s

/-- The object reached from `n` by following `parent_` exactly `k` times, if the chain is
that long. -/
def nthParent (s : Scene R M) (n : ObjId) : Nat → Option ObjId
  | 0 => some n
  | k + 1 => (nthParent s n k).bind s.parent_

/-- Within `k` steps the parent chain of `n` reaches an object whose bounds are already
dirty or an object without a parent: the walk of `dirtyHierarchicalBoundingVolume` ends. -/
def chainEnds (s : Scene R M) : Nat → ObjId → Bool
  | 0, _ => false
  | k + 1, n =>
    s.bounding_volume_dirty_ n ||
      match s.parent_ n with
      | none => true
      | some p => chainEnds s k p

/-- What a `detachX()` does to the pair (slots of the objects, owners of the items): an
occupied slot is emptied and its item loses its owner. -/
def slotDetach (st : (ObjId → Option CompId) × (CompId → Option ObjId)) (this : ObjId) :
    (ObjId → Option CompId) × (CompId → Option ObjId) :=
  match st.1 this with
  | some c => (Function.update st.1 this none, Function.update st.2 c none)
  | none => st

/-- What `attachRenderData(self, item)` does to the pair (slots, owners): detach the slot of
`this` if occupied, detach the slot of the owner of `item` if it has one, then set both. -/
def slotAttach (st : (ObjId → Option CompId) × (CompId → Option ObjId)) (this self : ObjId)
    (item : CompId) : (ObjId → Option CompId) × (CompId → Option ObjId) :=
  let st1 := match st.1 this with
    | some _ => slotDetach st this
    | none => st
  let st2 := match st1.2 item with
    | some owner_object => slotDetach st1 owner_object
    | none => st1
  (Function.update st2.1 this (some item), Function.update st2.2 item (some self))

/-- The heaps `s1` that differ from `s` at most in the bounds cache: the dirty flags and
the two cached volumes. -/
def SameButBounds (s s1 : Scene R M) : Prop :=
  ∃ d t m, s1 =
    { s with
      bounding_volume_dirty_ := d
      transformed_bounding_volume_ := t
      mesh_bounding_volume := m }

/-- A well-formed tree for the bounds recursion: `rank` decreases from every object to
each of its children (so no object is below itself), and every object whose render
payload has a mesh has a transform. -/
def WellFormed (s : Scene R M) (rank : ObjId → Nat) : Prop :=
  (∀ n c, c ∈ s.children_ n → rank c < rank n) ∧
  (∀ n rd v, s.render_data_ n = some rd → s.mesh rd = some v → s.transform_ n ≠ none)

/-- The ordered list of verdicts of the frustum test, first applicable entry first: 0 for an
invisible object, 0 when the box test rejects the hierarchical volume, 1 without render
payload or without material on pass 0, 0 when the LOD check fails, 1 when the object has
a child and the box test rejects its own mesh volume, else 2. -/
def verdictList (visible hierRejected noPayloadOrMaterial lodFails : Bool) (childCount : Nat)
    (meshRejected : Bool) : Int :=
  if visible = false then 0
  else if hierRejected then 0
  else if noPayloadOrMaterial then 1
  else if lodFails then 0
  else if 1 ≤ childCount ∧ meshRejected = true then 1
  else 2

/-- The value `a*x + b*y + c*z + d` of plane `p` of the frustum at the point `(x, y, z)`. -/
def planeValue [LinearOrderedCommRing R] (frustum : Fin 6 → Fin 4 → R) (p : Fin 6) (x y z : R) : R :=
  frustum p 0 * x + frustum p 1 * y + frustum p 2 * z + frustum p 3

/-- Plane `p` rejects the box: all eight corners of
`{Xmin,Xmax} x {Ymin,Ymax} x {Zmin,Zmax}` have `a*x + b*y + c*z + d <= 0`. -/
def PlaneRejects [LinearOrderedCommRing R] (frustum : Fin 6 → Fin 4 → R) (v : BoundingVolume R)
    (p : Fin 6) : Prop :=
  ∀ x ∈ [v.min_corner.x, v.max_corner.x], ∀ y ∈ [v.min_corner.y, v.max_corner.y],
    ∀ z ∈ [v.min_corner.z, v.max_corner.z], planeValue frustum p x y z ≤ 0

/-- The minimum of a six-float box on an axis (entries 0 to 2). -/
def boxMin (b : Fin 6 → R) (axis : Fin 3) : R := b (Fin.castAdd 3 axis)

/-- The maximum of a six-float box on an axis (entries 3 to 5). -/
def boxMax (b : Fin 6 → R) (axis : Fin 3) : R := b (Fin.natAdd 3 axis)

/-- Two boxes overlap strictly on all three axes: on each of x, y, z the maximum of the
first is above the minimum of the second and its minimum below the maximum of the
second. -/
def StrictOverlap [LinearOrderedCommRing R] (a b : Fin 6 → R) : Prop :=
  ∀ axis : Fin 3, boxMax a axis > boxMin b axis ∧ boxMin a axis < boxMax b axis

/-- Every object of the heap is freshly constructed and no component is attached. -/
def Scene.IsFresh (s : Scene R M) : Prop :=
  (∀ n, s.parent_ n = none) ∧ (∀ n, s.children_ n = []) ∧
  (∀ n, s.bounding_volume_dirty_ n = true) ∧
  (∀ n, s.transform_ n = none ∧ s.render_data_ n = none ∧ s.camera_ n = none ∧
    s.camera_rig_ n = none ∧ s.eye_pointee_holder_ n = none) ∧
  (∀ c, s.transform_owner c = none ∧ s.render_data_owner c = none ∧ s.camera_owner c = none ∧
    s.camera_rig_owner c = none ∧ s.eye_pointee_holder_owner c = none) ∧
  (∀ n, s.visible_ n = true ∧ s.vis_count_ n = 0 ∧ s.using_lod_ n = false)

/-- The heaps reachable from freshly created objects by `addChildObject` and
`removeChildObject` calls, for every choice of parent and child. -/
inductive TreeReachable : Scene R M → Prop where
  | fresh (s : Scene R M) : s.IsFresh → TreeReachable s
  | addChild (fuel : Nat) (s : Scene R M) (P C : ObjId) (s1 : Scene R M) :
      TreeReachable s → addChildObject fuel s P P C = .ret () s1 → TreeReachable s1
  | removeChild (fuel : Nat) (s : Scene R M) (P C : ObjId) (s1 : Scene R M) :
      TreeReachable s → removeChildObject fuel s P C = some s1 → TreeReachable s1

/-- The heaps reachable from freshly created objects by `removeChildObject` calls and by
`addChildObject` calls whose child has no parent at the time of the call. -/
inductive TreeReachableUnparented : Scene R M → Prop where
  | fresh (s : Scene R M) : s.IsFresh → TreeReachableUnparented s
  | addChild (fuel : Nat) (s : Scene R M) (P C : ObjId) (s1 : Scene R M) :
      TreeReachableUnparented s → s.parent_ C = none →
      addChildObject fuel s P P C = .ret () s1 → TreeReachableUnparented s1
  | removeChild (fuel : Nat) (s : Scene R M) (P C : ObjId) (s1 : Scene R M) :
      TreeReachableUnparented s → removeChildObject fuel s P C = some s1 →
      TreeReachableUnparented s1

/-- Single-parent ownership: no object occurs twice in a children sequence, and an object
occurs in the children sequence of `P` exactly when its parent reference is `P` (so it
occurs in at most one sequence). -/
def SingleParent (s : Scene R M) : Prop :=
  (∀ p, (s.children_ p).Nodup) ∧ (∀ c p, c ∈ s.children_ p ↔ s.parent_ c = some p)

/-- Outside the objects of `E`, a dirty object with a parent has a dirty parent. -/
def ClosedOutside (E : ObjId → Prop) (s : Scene R M) : Prop :=
  ∀ x p, ¬ E x → s.parent_ x = some p → s.bounding_volume_dirty_ x = true →
    s.bounding_volume_dirty_ p = true

/-- From `s` to `s1` only the bounds cache changed, no flag was set, and every object whose
flag was cleared has only clean children in `s1`. -/
def Cleans (s s1 : Scene R M) : Prop :=
  SameButBounds s s1 ∧
  (∀ x, s1.bounding_volume_dirty_ x = true → s.bounding_volume_dirty_ x = true) ∧
  (∀ x, s.bounding_volume_dirty_ x = true → s1.bounding_volume_dirty_ x = false →
    ∀ c ∈ s.children_ x, s1.bounding_volume_dirty_ c = false)

end Statements

/-! ## Fixtures: concrete heaps over the integers -/

/-- An integer volume is empty when a minimum exceeds the maximum. -/
def bvIsEmpty (v : BoundingVolume ℤ) : Bool :=
  decide (v.max_corner.x < v.min_corner.x ∨ v.max_corner.y < v.min_corner.y
    ∨ v.max_corner.z < v.min_corner.z)

/-- Modelled from the spec: `expand(other)`, "grow this volume's min/max/center/radius to
also enclose `other`", an empty volume enclosing nothing; integer boxes, the centre is
the midpoint (exact for corners of equal parity). -/
def bvHull (v w : BoundingVolume ℤ) : BoundingVolume ℤ :=
  if bvIsEmpty w then v
  else if bvIsEmpty v then w
  else
    let lo : Vec3 ℤ := ⟨min v.min_corner.x w.min_corner.x, min v.min_corner.y w.min_corner.y,
      min v.min_corner.z w.min_corner.z⟩
    let hi : Vec3 ℤ := ⟨max v.max_corner.x w.max_corner.x, max v.max_corner.y w.max_corner.y,
      max v.max_corner.z w.max_corner.z⟩
    ⟨lo, hi, ⟨(lo.x + hi.x) / 2, (lo.y + hi.y) / 2, (lo.z + hi.z) / 2⟩⟩

/-- Collaborators with threshold `T`: the model matrix is the identity, so a transformed
volume is the volume itself, and `expand` is the hull of integer boxes. -/
def envT (T : Int) : Collab ℤ Unit where
  bvTransform := fun v _ => v
  bvExpand := bvHull
  check_frames_ := T

/-- A default constructed volume over the integers: empty. -/
def bvEmpty : BoundingVolume ℤ := ⟨⟨1, 1, 1⟩, ⟨0, 0, 0⟩, ⟨0, 0, 0⟩⟩

/-- The box with corners `(lo, lo, lo)` and `(hi, hi, hi)`. -/
def cube (lo hi : ℤ) : BoundingVolume ℤ :=
  ⟨⟨lo, lo, lo⟩, ⟨hi, hi, hi⟩, ⟨(lo + hi) / 2, (lo + hi) / 2, (lo + hi) / 2⟩⟩

/-- Six planes bounding the open cube `-10 < x, y, z < 10`. -/
def frustum10 : Fin 6 → Fin 4 → ℤ :=
  ![![1, 0, 0, 10], ![-1, 0, 0, 10], ![0, 1, 0, 10], ![0, -1, 0, 10], ![0, 0, 1, 10],
    ![0, 0, -1, 10]]

/-- A heap of freshly constructed objects. -/
def scene0 : Scene ℤ Unit := Scene.fresh 1000000 bvEmpty ()

/-- A heap of fresh objects linked in a chain: 0 is the parent of 1 and 1 the parent of 2. -/
def sceneChain : Scene ℤ Unit :=
  { scene0 with
    parent_ := fun n => if n = 1 then some 0 else if n = 2 then some 1 else none
    children_ := fun n => if n = 0 then [1] else if n = 1 then [2] else [] }

/-- A heap of fresh objects where render payload 5 has a mesh with volume `cube 2 4` and a
material on pass 0. -/
def sceneMesh : Scene ℤ Unit :=
  { scene0 with
    mesh := fun r => if r = 5 then some (cube 2 4) else none
    material0 := fun r => decide (r = 5) }

/-- The heap `sceneMesh` where object 0 holds render payload 5 and transform 9, and object 2
holds camera 3 and transform 8 (at the origin). -/
def sceneCam : Scene ℤ Unit :=
  { sceneMesh with
    render_data_ := fun n => if n = 0 then some 5 else none
    render_data_owner := fun r => if r = 5 then some 0 else none
    transform_ := fun n => if n = 0 then some 9 else if n = 2 then some 8 else none
    transform_owner := fun t => if t = 9 then some 0 else if t = 8 then some 2 else none
    camera_ := fun n => if n = 2 then some 3 else none
    camera_owner := fun c => if c = 3 then some 2 else none }

/-- The six floats of a volume under the identity matrix: minimum then maximum. -/
def boxOf (v : BoundingVolume ℤ) (_ : Unit) : Fin 6 → ℤ :=
  ![v.min_corner.x, v.min_corner.y, v.min_corner.z, v.max_corner.x, v.max_corner.y,
    v.max_corner.z]

/-- A heap where object 0 holds render payload 5 (mesh volume `cube 2 4`) and transform 9,
and object 1 holds render payload 6 (mesh volume `cube 3 5`) and transform 8. -/
def sceneTwo : Scene ℤ Unit :=
  { scene0 with
    render_data_ := fun n => if n = 0 then some 5 else if n = 1 then some 6 else none
    render_data_owner := fun r => if r = 5 then some 0 else if r = 6 then some 1 else none
    transform_ := fun n => if n = 0 then some 9 else if n = 1 then some 8 else none
    transform_owner := fun t => if t = 9 then some 0 else if t = 8 then some 1 else none
    mesh := fun r => if r = 5 then some (cube 2 4) else if r = 6 then some (cube 3 5) else none }

/-- A heap of fresh objects in which object 0 is not visible. -/
def sceneHidden : Scene ℤ Unit :=
  { scene0 with visible_ := Function.update scene0.visible_ 0 false }

end GVRf

/-! ## Properties -/

namespace GVRf

section Debouncer

variable {R M : Type}

theorem set_visible_fst_snd (env : Collab R M) (s : Scene R M) (this : ObjId) (b : Bool) :
    ((s.set_visible env this b).visible_ this, (s.set_visible env this b).vis_count_ this)
      = GVRf.set_visible env.check_frames_ (s.visible_ this, s.vis_count_ this) b := by
  simp [Scene.set_visible]

theorem votes_fst_snd (env : Collab R M) (this : ObjId) (bs : List Bool) :
    ∀ s : Scene R M,
      ((s.votes env this bs).visible_ this, (s.votes env this bs).vis_count_ this)
        = bs.foldl (GVRf.set_visible env.check_frames_) (s.visible_ this, s.vis_count_ this) := by
  induction bs with
  | nil => intro s; rfl
  | cons b bs ih =>
    intro s
    have h := ih (s.set_visible env this b)
    rw [set_visible_fst_snd] at h
    simpa [Scene.votes] using h

theorem set_visible_counter_bounded (T : Int) (hT : 0 ≤ T) (v : Bool) (c : Int) (b : Bool)
    (hc : -T ≤ c ∧ c ≤ T) :
    -T ≤ (GVRf.set_visible T (v, c) b).2 ∧ (GVRf.set_visible T (v, c) b).2 ≤ T := by
  unfold GVRf.set_visible
  cases b <;> simp only [Bool.false_eq_true, if_true, if_false] <;> split_ifs <;>
    simp only <;> constructor <;> omega

theorem foldl_set_visible_quiet (T : Int) (bs : List Bool) :
    ∀ (v : Bool) (c : Int),
      (∀ k, k ≤ bs.length → -T < c + netCount (bs.take k) ∧ c + netCount (bs.take k) < T) →
      bs.foldl (GVRf.set_visible T) (v, c) = (v, c + netCount bs) := by
  induction bs with
  | nil => intro v c _; simp [netCount]
  | cons b bs ih =>
    intro v c h
    have h1 := h 1 (by simp)
    simp only [List.take_succ_cons, List.take_zero, netCount, add_zero] at h1
    have hstep : GVRf.set_visible T (v, c) b = (v, c + (if b = true then 1 else -1)) := by
      obtain ⟨h1a, h1b⟩ := h1
      cases b
      · simp only [Bool.false_eq_true, if_false] at h1a h1b
        have e1 : ¬ (c - 1 > T) := by omega
        have e2 : ¬ (c - 1 < -1 * T) := by omega
        simp only [GVRf.set_visible, Bool.false_eq_true, if_false, if_neg e1, if_neg e2]
        rfl
      · simp only [if_true] at h1a h1b
        have e1 : ¬ (c + 1 > T) := by omega
        have e2 : ¬ (c + 1 < -1 * T) := by omega
        simp only [GVRf.set_visible, if_true, if_neg e1, if_neg e2]
    rw [List.foldl_cons, hstep, ih v _ ?_]
    · simp [netCount, add_assoc]
    · intro k hk
      have := h (k + 1) (by simpa using hk)
      simpa [netCount, add_assoc] using this

/-- Claim C6 (debouncer step): with threshold `T > 0`, `set_visible(b)` on a state with
flag `v` and counter `c` forms `c' = c + 1` for a true vote and `c' = c - 1` for a false
one; if `c' > T` the flag becomes true and the counter 0, else if `c' < -T` the flag
becomes false and the counter 0, and otherwise the flag stays and the counter is `c'`. -/
theorem set_visible_step (env : Collab R M) (hT : 0 < env.check_frames_) (s : Scene R M)
    (this : ObjId) (b : Bool) :
    ∃ c' : Int,
      (b = true → c' = s.vis_count_ this + 1) ∧ (b = false → c' = s.vis_count_ this - 1) ∧
      (env.check_frames_ < c' →
        (s.set_visible env this b).visible_ this = true ∧
        (s.set_visible env this b).vis_count_ this = 0) ∧
      (¬ env.check_frames_ < c' → c' < -env.check_frames_ →
        (s.set_visible env this b).visible_ this = false ∧
        (s.set_visible env this b).vis_count_ this = 0) ∧
      (¬ env.check_frames_ < c' → ¬ c' < -env.check_frames_ →
        (s.set_visible env this b).visible_ this = s.visible_ this ∧
        (s.set_visible env this b).vis_count_ this = c') := by
  have _ := hT
  refine ⟨if b = true then s.vis_count_ this + 1 else s.vis_count_ this - 1, ?_, ?_, ?_, ?_, ?_⟩
  · intro hb; simp [hb]
  · intro hb; simp [hb]
  · intro h; simp [Scene.set_visible, GVRf.set_visible, h]
  · intro h1 h2
    simp only [Scene.set_visible, GVRf.set_visible, Function.update_same]
    rw [if_neg h1, if_pos (by simpa using h2)]
    simp
  · intro h1 h2
    simp only [Scene.set_visible, GVRf.set_visible, Function.update_same]
    rw [if_neg h1, if_neg (by simpa using h2)]
    simp

/-- Witness for C6: threshold 5, a fresh object, a true vote. -/
theorem set_visible_step_witness :
    ∃ c' : Int,
      (true = true → c' = scene0.vis_count_ 0 + 1) ∧ (true = false → c' = scene0.vis_count_ 0 - 1) ∧
      ((envT 5).check_frames_ < c' →
        (scene0.set_visible (envT 5) 0 true).visible_ 0 = true ∧
        (scene0.set_visible (envT 5) 0 true).vis_count_ 0 = 0) ∧
      (¬ (envT 5).check_frames_ < c' → c' < -(envT 5).check_frames_ →
        (scene0.set_visible (envT 5) 0 true).visible_ 0 = false ∧
        (scene0.set_visible (envT 5) 0 true).vis_count_ 0 = 0) ∧
      (¬ (envT 5).check_frames_ < c' → ¬ c' < -(envT 5).check_frames_ →
        (scene0.set_visible (envT 5) 0 true).visible_ 0 = scene0.visible_ 0 ∧
        (scene0.set_visible (envT 5) 0 true).vis_count_ 0 = c') :=
  set_visible_step (envT 5) (by decide) scene0 0 true

/-- Claim C7, as stated, fails: with threshold 5, counter 0 and flag false, after the
fifth consecutive `set_visible(true)` the flag is still false and the counter is 5
(the comparison is `vis_count_ > check_frames_`), not flipped and reset. -/
theorem set_visible_fifth_call_no_flip :
    (sceneHidden.votes (envT 5) 0 [true, true, true, true, true]).visible_ 0 = false ∧
    (sceneHidden.votes (envT 5) 0 [true, true, true, true, true]).vis_count_ 0 = 5 ∧
    ¬ ((sceneHidden.votes (envT 5) 0 [true, true, true, true, true]).visible_ 0 = true ∧
       (sceneHidden.votes (envT 5) 0 [true, true, true, true, true]).vis_count_ 0 = 0) := by
  decide

/-- Claim C7, amended: with threshold 5, counter 0 and flag false, each of the first five
consecutive `set_visible(true)` calls leaves the flag false (the counter counts the
calls), and the sixth call sets the flag to true and the counter to 0. -/
theorem set_visible_sixth_call_flips (env : Collab R M) (h5 : env.check_frames_ = 5)
    (s : Scene R M) (this : ObjId) (hc : s.vis_count_ this = 0) (hv : s.visible_ this = false) :
    (∀ k : Nat, k ≤ 5 →
      (s.votes env this (List.replicate k true)).visible_ this = false ∧
      (s.votes env this (List.replicate k true)).vis_count_ this = k) ∧
    (s.votes env this (List.replicate 6 true)).visible_ this = true ∧
    (s.votes env this (List.replicate 6 true)).vis_count_ this = 0 := by
  have key : ∀ bs : List Bool,
      ((s.votes env this bs).visible_ this, (s.votes env this bs).vis_count_ this)
        = bs.foldl (GVRf.set_visible 5) (false, 0) := by
    intro bs
    rw [votes_fst_snd, h5, hc, hv]
  refine ⟨?_, ?_⟩
  · intro k hk
    have hk2 := key (List.replicate k true)
    have hfold : (List.replicate k true).foldl (GVRf.set_visible 5) (false, 0)
        = (false, (k : Int)) := by
      interval_cases k <;> decide
    rw [hfold] at hk2
    exact ⟨(Prod.mk.inj hk2).1, (Prod.mk.inj hk2).2⟩
  · have h6 := key (List.replicate 6 true)
    have hfold : (List.replicate 6 true).foldl (GVRf.set_visible 5) (false, 0)
        = (true, (0 : Int)) := by decide
    rw [hfold] at h6
    exact ⟨(Prod.mk.inj h6).1, (Prod.mk.inj h6).2⟩

/-- Witness for the amended C7 on the heap where object 0 is hidden. -/
theorem set_visible_sixth_call_flips_witness :
    (∀ k : Nat, k ≤ 5 →
      (sceneHidden.votes (envT 5) 0 (List.replicate k true)).visible_ 0 = false ∧
      (sceneHidden.votes (envT 5) 0 (List.replicate k true)).vis_count_ 0 = k) ∧
    (sceneHidden.votes (envT 5) 0 (List.replicate 6 true)).visible_ 0 = true ∧
    (sceneHidden.votes (envT 5) 0 (List.replicate 6 true)).vis_count_ 0 = 0 :=
  set_visible_sixth_call_flips (envT 5) rfl sceneHidden 0 rfl (by decide)

/-- Claim C8 (stability under noise): with threshold `T > 0` and counter 0, a sequence of
votes whose running net count stays strictly between `-T` and `T` after every prefix
leaves the stable flag as it was, and the counter ends at the net count. -/
theorem votes_quiet (env : Collab R M) (hT : 0 < env.check_frames_) (s : Scene R M)
    (this : ObjId) (hc : s.vis_count_ this = 0) (bs : List Bool)
    (hnet : ∀ k, k ≤ bs.length →
      -env.check_frames_ < netCount (bs.take k) ∧ netCount (bs.take k) < env.check_frames_) :
    (s.votes env this bs).visible_ this = s.visible_ this ∧
    (s.votes env this bs).vis_count_ this = netCount bs := by
  have _ := hT
  have h := votes_fst_snd env this bs s
  rw [hc, foldl_set_visible_quiet env.check_frames_ bs (s.visible_ this) 0
    (by simpa using hnet)] at h
  exact ⟨(Prod.mk.inj h).1, by simpa using (Prod.mk.inj h).2⟩

/-- Witness for C8: threshold 2 and the votes true, false, false, true, true. -/
theorem votes_quiet_witness :
    (scene0.votes (envT 2) 0 [true, false, false, true, true]).visible_ 0 = scene0.visible_ 0 ∧
    (scene0.votes (envT 2) 0 [true, false, false, true, true]).vis_count_ 0
      = netCount [true, false, false, true, true] :=
  votes_quiet (envT 2) (by decide) scene0 0 rfl [true, false, false, true, true]
    (by decide)

end Debouncer

end GVRf

namespace GVRf

section BoxTest

variable {R M : Type} [LinearOrderedCommRing R]

theorem planeRejects_iff (frustum : Fin 6 → Fin 4 → R) (v : BoundingVolume R) (p : Fin 6) :
    PlaneRejects frustum v p ↔
      (planeValue frustum p v.min_corner.x v.min_corner.y v.min_corner.z ≤ 0 ∧
       planeValue frustum p v.max_corner.x v.min_corner.y v.min_corner.z ≤ 0 ∧
       planeValue frustum p v.min_corner.x v.max_corner.y v.min_corner.z ≤ 0 ∧
       planeValue frustum p v.max_corner.x v.max_corner.y v.min_corner.z ≤ 0 ∧
       planeValue frustum p v.min_corner.x v.min_corner.y v.max_corner.z ≤ 0 ∧
       planeValue frustum p v.max_corner.x v.min_corner.y v.max_corner.z ≤ 0 ∧
       planeValue frustum p v.min_corner.x v.max_corner.y v.max_corner.z ≤ 0 ∧
       planeValue frustum p v.max_corner.x v.max_corner.y v.max_corner.z ≤ 0) := by
  constructor
  · intro h
    have hl : ∀ a b : R, a ∈ [a, b] := fun a b => List.mem_cons_self a [b]
    have hr : ∀ a b : R, b ∈ [a, b] := fun a b => List.mem_cons_of_mem a (List.mem_singleton.mpr rfl)
    exact ⟨h _ (hl _ _) _ (hl _ _) _ (hl _ _), h _ (hr _ _) _ (hl _ _) _ (hl _ _),
      h _ (hl _ _) _ (hr _ _) _ (hl _ _), h _ (hr _ _) _ (hr _ _) _ (hl _ _),
      h _ (hl _ _) _ (hl _ _) _ (hr _ _), h _ (hr _ _) _ (hl _ _) _ (hr _ _),
      h _ (hl _ _) _ (hr _ _) _ (hr _ _), h _ (hr _ _) _ (hr _ _) _ (hr _ _)⟩
  · rintro ⟨h1, h2, h3, h4, h5, h6, h7, h8⟩ x hx y hy z hz
    simp only [List.mem_cons, List.mem_singleton, List.not_mem_nil, or_false] at hx hy hz
    rcases hx with rfl | rfl <;> rcases hy with rfl | rfl <;> rcases hz with rfl | rfl <;>
      assumption

theorem cubeLoop_cons_of_rejects (frustum : Fin 6 → Fin 4 → R) (v : BoundingVolume R)
    (p : Fin 6) (ps : List (Fin 6)) (h : PlaneRejects frustum v p) :
    cubeLoop frustum v (p :: ps) = false := by
  obtain ⟨h1, h2, h3, h4, h5, h6, h7, h8⟩ := (planeRejects_iff frustum v p).mp h
  simp only [planeValue] at h1 h2 h3 h4 h5 h6 h7 h8
  rw [cubeLoop]
  simp only [gt_iff_lt, if_neg (not_lt.mpr h1), if_neg (not_lt.mpr h2), if_neg (not_lt.mpr h3),
    if_neg (not_lt.mpr h4), if_neg (not_lt.mpr h5), if_neg (not_lt.mpr h6),
    if_neg (not_lt.mpr h7), if_neg (not_lt.mpr h8)]

theorem cubeLoop_cons_of_not_rejects (frustum : Fin 6 → Fin 4 → R) (v : BoundingVolume R)
    (p : Fin 6) (ps : List (Fin 6)) (h : ¬ PlaneRejects frustum v p) :
    cubeLoop frustum v (p :: ps) = cubeLoop frustum v ps := by
  rw [cubeLoop]
  simp only [gt_iff_lt]
  split_ifs with h1 h2 h3 h4 h5 h6 h7 h8
  all_goals first
    | rfl
    | exact absurd ((planeRejects_iff frustum v p).mpr
        ⟨not_lt.mp h1, not_lt.mp h2, not_lt.mp h3, not_lt.mp h4, not_lt.mp h5, not_lt.mp h6,
          not_lt.mp h7, not_lt.mp h8⟩) h

theorem cubeLoop_eq_true_iff (frustum : Fin 6 → Fin 4 → R) (v : BoundingVolume R)
    (ps : List (Fin 6)) :
    cubeLoop frustum v ps = true ↔ ∀ p ∈ ps, ¬ PlaneRejects frustum v p := by
  induction ps with
  | nil => simp [cubeLoop]
  | cons p ps ih =>
    by_cases h : PlaneRejects frustum v p
    · rw [cubeLoop_cons_of_rejects frustum v p ps h]
      simp only [Bool.false_eq_true, List.mem_cons, forall_eq_or_imp, false_iff, not_and]
      intro hn; exact absurd h hn
    · rw [cubeLoop_cons_of_not_rejects frustum v p ps h, ih]
      simp only [List.mem_cons, forall_eq_or_imp]
      exact ⟨fun hh => ⟨h, hh⟩, fun hh => hh.2⟩

theorem is_cube_in_frustum_iff (frustum : Fin 6 → Fin 4 → R) (v : BoundingVolume R) :
    is_cube_in_frustum frustum v = true ↔ ∀ p : Fin 6, ¬ PlaneRejects frustum v p := by
  unfold is_cube_in_frustum
  rw [cubeLoop_eq_true_iff]
  exact ⟨fun h p => h p (List.mem_finRange p), fun h p _ => h p⟩

theorem mul_le_corner (a x lo hi : R) (h1 : lo ≤ x) (h2 : x ≤ hi) :
    ∃ c ∈ [lo, hi], a * x ≤ a * c := by
  rcases le_total 0 a with ha | ha
  · exact ⟨hi, by simp, mul_le_mul_of_nonneg_left h2 ha⟩
  · exact ⟨lo, by simp, mul_le_mul_of_nonpos_left h1 ha⟩

theorem not_planeRejects_of_point (frustum : Fin 6 → Fin 4 → R) (v : BoundingVolume R)
    (p : Fin 6) (x y z : R)
    (hx : v.min_corner.x ≤ x ∧ x ≤ v.max_corner.x) (hy : v.min_corner.y ≤ y ∧ y ≤ v.max_corner.y)
    (hz : v.min_corner.z ≤ z ∧ z ≤ v.max_corner.z) (hpos : 0 < planeValue frustum p x y z) :
    ¬ PlaneRejects frustum v p := by
  intro hrej
  obtain ⟨cx, hcx, hx2⟩ := mul_le_corner (frustum p 0) x _ _ hx.1 hx.2
  obtain ⟨cy, hcy, hy2⟩ := mul_le_corner (frustum p 1) y _ _ hy.1 hy.2
  obtain ⟨cz, hcz, hz2⟩ := mul_le_corner (frustum p 2) z _ _ hz.1 hz.2
  have hc := hrej cx hcx cy hcy cz hcz
  simp only [planeValue] at hc hpos
  linarith

/-- Claim C5 (never cull a visible box): for six planes and a box with `min <= max` on each
axis, if a point of the box has `a*x + b*y + c*z + d > 0` for all six planes, then
`is_cube_in_frustum` returns true, and `frustumCull` of a visible object whose
hierarchical volume is that box goes on to the code after the bounds test. -/
theorem visible_box_not_culled (frustum : Fin 6 → Fin 4 → R) (v : BoundingVolume R)
    (hbox : v.min_corner.x ≤ v.max_corner.x ∧ v.min_corner.y ≤ v.max_corner.y ∧
      v.min_corner.z ≤ v.max_corner.z)
    (x y z : R)
    (hx : v.min_corner.x ≤ x ∧ x ≤ v.max_corner.x) (hy : v.min_corner.y ≤ y ∧ y ≤ v.max_corner.y)
    (hz : v.min_corner.z ≤ z ∧ z ≤ v.max_corner.z)
    (hin : ∀ p : Fin 6, frustum p 0 * x + frustum p 1 * y + frustum p 2 * z + frustum p 3 > 0) :
    is_cube_in_frustum frustum v = true ∧
    ∀ (env : Collab R M) (fuel : Nat) (s s1 : Scene R M) (this : ObjId) (camera : CompId),
      s.visible_ this = true → getBoundingVolume env fuel s this = .ret v s1 →
      frustumCull env fuel s this camera frustum
        = cullAfterBoundsTest s1 this camera frustum v true := by
  have _ := hbox
  have hacc : is_cube_in_frustum frustum v = true :=
    (is_cube_in_frustum_iff frustum v).mpr
      (fun p => not_planeRejects_of_point frustum v p x y z hx hy hz (hin p))
  refine ⟨hacc, ?_⟩
  intro env fuel s s1 this camera hvis hbv
  simp [frustumCull, hvis, hbv, hacc]

/-- Witness for C5: the cube with corners 0 and 2, its point (1, 1, 1), and the planes of
`frustum10`. -/
theorem visible_box_not_culled_witness :
    is_cube_in_frustum frustum10 (cube 0 2) = true ∧
    ∀ (env : Collab ℤ Unit) (fuel : Nat) (s s1 : Scene ℤ Unit) (this : ObjId) (camera : CompId),
      s.visible_ this = true → getBoundingVolume env fuel s this = .ret (cube 0 2) s1 →
      frustumCull env fuel s this camera frustum10
        = cullAfterBoundsTest s1 this camera frustum10 (cube 0 2) true :=
  visible_box_not_culled frustum10 (cube 0 2) (by decide) 1 1 1 (by decide) (by decide)
    (by decide) (by decide)

end BoxTest

end GVRf

namespace GVRf

section Children

variable {R M : Type}

theorem nthParent_succ (s : Scene R M) (n : ObjId) (k : Nat) :
    nthParent s n (k + 1) = (s.parent_ n).bind (fun p => nthParent s p k) := by
  induction k with
  | zero => simp [nthParent]
  | succ k ih =>
    rw [nthParent, ih]
    cases h : s.parent_ n with
    | none => simp
    | some p => simp [nthParent]

theorem cycleLoop_of_nthParent (s : Scene R M) (child : ObjId) :
    ∀ (k : Nat) (p : ObjId), nthParent s p k = some child →
      ∀ fuel, k < fuel → cycleLoop s child fuel (some p) = some true := by
  intro k
  induction k with
  | zero =>
    intro p hp fuel hf
    obtain ⟨f, rfl⟩ : ∃ f, fuel = f + 1 := ⟨fuel - 1, by omega⟩
    have hpc : p = child := by simpa [nthParent] using hp
    simp [cycleLoop, hpc]
  | succ k ih =>
    intro p hp fuel hf
    obtain ⟨f, rfl⟩ : ∃ f, fuel = f + 1 := ⟨fuel - 1, by omega⟩
    rw [nthParent_succ] at hp
    by_cases hc : child = p
    · simp [cycleLoop, hc]
    · cases hq : s.parent_ p with
      | none => simp [hq] at hp
      | some q =>
        rw [hq] at hp
        simp only [cycleLoop, if_neg hc, hq]
        exact ih q (by simpa using hp) f (by omega)

/-- Claim C1 (cycle rejection): if `A` is reached by walking the parent chain of `B` upward
(`k + 1` steps, so `B` is a descendant of `A`), then `addChildObject` called on `B` with
child `A` throws the cycle error, with any fuel above `k`, and the heap at the throw is
the heap before the call: no children sequence, parent reference or dirty flag changed. -/
theorem addChildObject_rejects_ancestor (s : Scene R M) (A B : ObjId) (k : Nat)
    (hanc : nthParent s B (k + 1) = some A) (fuel : Nat) (hfuel : k < fuel) :
    addChildObject fuel s B B A = .threw cycleError s := by
  rw [nthParent_succ] at hanc
  cases hp : s.parent_ B with
  | none => simp [hp] at hanc
  | some p =>
    rw [hp] at hanc
    have h := cycleLoop_of_nthParent s A k p (by simpa using hanc) fuel hfuel
    simp [addChildObject, hp, h]

/-- Witness for C1: in the chain 0 - 1 - 2, adding 0 as a child of 2 is rejected. -/
theorem addChildObject_rejects_ancestor_witness :
    nthParent sceneChain 2 2 = some 0 ∧
    addChildObject 2 sceneChain 2 2 0 = .threw cycleError sceneChain :=
  ⟨rfl, addChildObject_rejects_ancestor sceneChain 0 2 1 rfl 2 (by decide)⟩

/-- Claim C2 fails on the code: on a freshly created object 0, `addChildObject(0, 0)` (the
object passed as its own child) returns normally, since the ancestor loop starts at
`parent_` and never compares `child` with the object itself; afterwards object 0 is its
own parent and its own child. -/
theorem addChildObject_self_cycle :
    ∃ s1 : Scene ℤ Unit, addChildObject 1 scene0 0 0 0 = .ret () s1 ∧
      s1.parent_ 0 = some 0 ∧ s1.children_ 0 = [0] ∧ nthParent s1 0 1 = some 0 :=
  ⟨_, rfl, rfl, rfl, rfl⟩

end Children

end GVRf

namespace GVRf

section Attach

variable {R M : Type}

theorem chainEnds_more_dirty (s s1 : Scene R M) (hp : s1.parent_ = s.parent_)
    (hd : ∀ m, s.bounding_volume_dirty_ m = true → s1.bounding_volume_dirty_ m = true) :
    ∀ (k : Nat) (n : ObjId), chainEnds s k n = true → chainEnds s1 k n = true := by
  intro k
  induction k with
  | zero => intro n h; simp [chainEnds] at h
  | succ k ih =>
    intro n h
    simp only [chainEnds, Bool.or_eq_true] at h ⊢
    rcases h with h | h
    · exact Or.inl (hd n h)
    · right
      rw [hp]
      cases hq : s.parent_ n with
      | none => rfl
      | some q =>
        rw [hq] at h
        exact ih q h

theorem chainEnds_le (s : Scene R M) :
    ∀ (k : Nat) (n : ObjId), chainEnds s k n = true → ∀ j, k ≤ j → chainEnds s j n = true := by
  intro k
  induction k with
  | zero => intro n h; simp [chainEnds] at h
  | succ k ih =>
    intro n h j hj
    obtain ⟨i, rfl⟩ : ∃ i, j = i + 1 := ⟨j - 1, by omega⟩
    simp only [chainEnds, Bool.or_eq_true] at h ⊢
    rcases h with h | h
    · exact Or.inl h
    · right
      cases hq : s.parent_ n with
      | none => rfl
      | some q =>
        rw [hq] at h
        exact ih q h i (by omega)

theorem dirty_returns :
    ∀ (fuel : Nat) (s : Scene R M) (this : ObjId), chainEnds s fuel this = true →
      ∃ d, dirtyHierarchicalBoundingVolume fuel s this
          = some { s with bounding_volume_dirty_ := d } ∧
        (∀ m, s.bounding_volume_dirty_ m = true → d m = true) ∧ d this = true := by
  intro fuel
  induction fuel with
  | zero => intro s this h; simp [chainEnds] at h
  | succ fuel ih =>
    intro s this h
    by_cases hd : s.bounding_volume_dirty_ this = true
    · exact ⟨s.bounding_volume_dirty_, by simp [dirtyHierarchicalBoundingVolume, hd],
        fun _ hm => hm, hd⟩
    · have hd0 : s.bounding_volume_dirty_ this = false := by simpa using hd
      simp only [chainEnds, hd0, Bool.false_or] at h
      simp only [dirtyHierarchicalBoundingVolume, hd0]
      cases hq : s.parent_ this with
      | none =>
        refine ⟨Function.update s.bounding_volume_dirty_ this true, by simp, ?_, by simp⟩
        intro m hm
        by_cases hmt : m = this
        · rw [hmt, Function.update_same]
        · rw [Function.update_noteq hmt]; exact hm
      | some q =>
        rw [hq] at h
        have hmono : ∀ m, s.bounding_volume_dirty_ m = true →
            Function.update s.bounding_volume_dirty_ this true m = true := by
          intro m hm
          by_cases hmt : m = this
          · rw [hmt, Function.update_same]
          · rw [Function.update_noteq hmt]; exact hm
        obtain ⟨d, hd1, hd2, _⟩ := ih
          { s with bounding_volume_dirty_ := Function.update s.bounding_volume_dirty_ this true } q
          (chainEnds_more_dirty s
            { s with bounding_volume_dirty_ := Function.update s.bounding_volume_dirty_ this true }
            rfl hmono fuel q h)
        refine ⟨d, by simpa using hd1, fun m hm => hd2 m (hmono m hm), hd2 this (by simp)⟩

theorem detachRenderData_spec (s : Scene R M) (K fuel : Nat)
    (hK : ∀ n, chainEnds s K n = true) (hf : K ≤ fuel) (this : ObjId) :
    ∃ s1, detachRenderData fuel s this = some s1 ∧
      (s1.render_data_, s1.render_data_owner)
        = slotDetach (s.render_data_, s.render_data_owner) this ∧
      (∀ n, chainEnds s1 K n = true) := by
  unfold detachRenderData
  cases hr : s.render_data_ this with
  | none =>
    obtain ⟨d, h1, h2, _⟩ := dirty_returns fuel s this (chainEnds_le s K this (hK this) fuel hf)
    refine ⟨_, h1, by simp [slotDetach, hr], ?_⟩
    exact fun n => chainEnds_more_dirty s _ (by rfl) (by exact h2) K n (hK n)
  | some r =>
    obtain ⟨d, h1, h2, _⟩ := dirty_returns fuel
      { s with render_data_owner := Function.update s.render_data_owner r none,
               render_data_ := Function.update s.render_data_ this none } this
      (chainEnds_le _ K this (chainEnds_more_dirty s _ (by rfl) (by exact fun _ hm => hm) K this (hK this))
        fuel hf)
    refine ⟨_, h1, by simp [slotDetach, hr], ?_⟩
    exact fun n => chainEnds_more_dirty s _ (by rfl) (by exact h2) K n (hK n)

theorem slotDetach_of_none (st : (ObjId → Option CompId) × (CompId → Option ObjId))
    (this : ObjId) (h : st.1 this = none) : slotDetach st this = st := by
  simp [slotDetach, h]

theorem slotDetach_fst (st : (ObjId → Option CompId) × (CompId → Option ObjId))
    (this m : ObjId) : (slotDetach st this).1 m = if m = this then none else st.1 m := by
  unfold slotDetach
  cases h : st.1 this with
  | none => by_cases hm : m = this <;> simp [hm, h]
  | some c => by_cases hm : m = this <;> simp [hm, Function.update]

theorem slotDetach_snd (st : (ObjId → Option CompId) × (CompId → Option ObjId))
    (this : ObjId) (c : CompId) :
    (slotDetach st this).2 c = if st.1 this = some c then none else st.2 c := by
  unfold slotDetach
  cases h : st.1 this with
  | none => simp
  | some c1 =>
    by_cases hc : c = c1
    · simp [hc, Function.update]
    · have hc2 : ¬ c1 = c := fun e => hc e.symm
      simp [Function.update, hc, hc2]

theorem attachRenderData_spec (s : Scene R M) (K fuel : Nat)
    (hK : ∀ n, chainEnds s K n = true) (hf : K ≤ fuel) (this self : ObjId) (rd : CompId) :
    ∃ s1, attachRenderData fuel s this self rd = some s1 ∧
      (s1.render_data_, s1.render_data_owner)
        = slotAttach (s.render_data_, s.render_data_owner) this self rd ∧
      (∀ n, chainEnds s1 K n = true) := by
  obtain ⟨sa, ha1, ha2, ha3⟩ : ∃ sa, (match s.render_data_ this with
        | some _ => detachRenderData fuel s this
        | none => some s) = some sa ∧
      (sa.render_data_, sa.render_data_owner)
        = (match s.render_data_ this with
          | some _ => slotDetach (s.render_data_, s.render_data_owner) this
          | none => (s.render_data_, s.render_data_owner)) ∧
      (∀ n, chainEnds sa K n = true) := by
    cases hr : s.render_data_ this with
    | none => exact ⟨s, rfl, rfl, hK⟩
    | some r => exact detachRenderData_spec s K fuel hK hf this
  obtain ⟨sb, hb1, hb2, hb3⟩ : ∃ sb, (match sa.render_data_owner rd with
        | some owner_object => detachRenderData fuel sa owner_object
        | none => some sa) = some sb ∧
      (sb.render_data_, sb.render_data_owner)
        = (match sa.render_data_owner rd with
          | some owner_object => slotDetach (sa.render_data_, sa.render_data_owner) owner_object
          | none => (sa.render_data_, sa.render_data_owner)) ∧
      (∀ n, chainEnds sb K n = true) := by
    cases hr : sa.render_data_owner rd with
    | none => exact ⟨sa, rfl, rfl, ha3⟩
    | some o => exact detachRenderData_spec sa K fuel ha3 hf o
  obtain ⟨d, hd1, hd2, _⟩ := dirty_returns fuel
    { sb with render_data_ := Function.update sb.render_data_ this (some rd),
              render_data_owner := Function.update sb.render_data_owner rd (some self) } this
    (chainEnds_le _ K this (chainEnds_more_dirty sb _ (by rfl) (by exact fun _ hm => hm) K this (hb3 this))
      fuel hf)
  have hatt : attachRenderData fuel s this self rd
      = dirtyHierarchicalBoundingVolume fuel
          { sb with render_data_ := Function.update sb.render_data_ this (some rd),
                    render_data_owner := Function.update sb.render_data_owner rd (some self) }
          this := by
    unfold attachRenderData
    rw [ha1, Option.some_bind, hb1, Option.some_bind]
  rw [hatt, hd1]
  refine ⟨_, rfl, ?_, ?_⟩
  · simp only [slotAttach]
    rw [← ha2, ← hb2]
  · exact fun n => chainEnds_more_dirty sb _ (by rfl) (by exact hd2) K n (hb3 n)

theorem slotAttach_eq (st : (ObjId → Option CompId) × (CompId → Option ObjId))
    (this self : ObjId) (item : CompId) :
    slotAttach st this self item =
      (Function.update
          (match (slotDetach st this).2 item with
            | some o => slotDetach (slotDetach st this) o
            | none => slotDetach st this).1 this (some item),
        Function.update
          (match (slotDetach st this).2 item with
            | some o => slotDetach (slotDetach st this) o
            | none => slotDetach st this).2 item (some self)) := by
  unfold slotAttach
  cases h : st.1 this with
  | none => simp only [slotDetach_of_none st this h]
  | some c => rfl

theorem slotAttach_self (st : (ObjId → Option CompId) × (CompId → Option ObjId))
    (this self : ObjId) (item : CompId) :
    (slotAttach st this self item).1 this = some item ∧
    (slotAttach st this self item).2 item = some self := by
  rw [slotAttach_eq]
  simp

theorem slotAttach_other (st : (ObjId → Option CompId) × (CompId → Option ObjId))
    (A B : ObjId) (r : CompId) (hAB : A ≠ B)
    (hcons : ∀ n, st.1 n = some r → st.2 r = some n) :
    (slotAttach st A A r).1 B ≠ some r := by
  rw [slotAttach_eq]
  have hBA : B ≠ A := fun e => hAB e.symm
  simp only [Function.update_noteq hBA]
  intro hB
  have h0 : (slotDetach st A).2 r = if st.1 A = some r then none else st.2 r :=
    slotDetach_snd st A r
  have h1 : (slotDetach st A).1 B = st.1 B := by rw [slotDetach_fst, if_neg hBA]
  by_cases hA : st.1 A = some r
  · rw [if_pos hA] at h0
    rw [h0] at hB
    simp only at hB
    rw [h1] at hB
    have e1 := hcons A hA
    have e2 := hcons B hB
    rw [e1] at e2
    exact hAB (Option.some.inj e2)
  · rw [if_neg hA] at h0
    cases ho : st.2 r with
    | none =>
      rw [ho] at h0
      rw [h0] at hB
      simp only at hB
      rw [h1] at hB
      have e2 := hcons B hB
      rw [ho] at e2
      exact Option.noConfusion e2
    | some o =>
      rw [ho] at h0
      rw [h0] at hB
      simp only at hB
      rw [slotDetach_fst] at hB
      by_cases hBo : B = o
      · rw [if_pos hBo] at hB
        exact Option.noConfusion hB
      · rw [if_neg hBo, h1] at hB
        have e2 := hcons B hB
        rw [ho] at e2
        exact hBo (Option.some.inj e2).symm

theorem slotAttach_steal (st : (ObjId → Option CompId) × (CompId → Option ObjId))
    (A B : ObjId) (r : CompId) (hAB : A ≠ B)
    (hb : st.2 r = some A) (hc : st.1 B ≠ some r) :
    (slotAttach st B B r).1 A = none ∧ (slotAttach st B B r).1 B = some r ∧
    (slotAttach st B B r).2 r = some B := by
  refine ⟨?_, (slotAttach_self st B B r).1, (slotAttach_self st B B r).2⟩
  rw [slotAttach_eq]
  simp only [Function.update_noteq hAB]
  have h0 : (slotDetach st B).2 r = some A := by
    rw [slotDetach_snd, if_neg hc, hb]
  rw [h0]
  simp only
  rw [slotDetach_fst, if_pos rfl]

theorem slotDetach_consistent (st : (ObjId → Option CompId) × (CompId → Option ObjId))
    (t : ObjId) (h : ∀ n r, st.1 n = some r → st.2 r = some n) :
    ∀ n r, (slotDetach st t).1 n = some r → (slotDetach st t).2 r = some n := by
  intro n r hn
  rw [slotDetach_fst] at hn
  by_cases hnt : n = t
  · rw [if_pos hnt] at hn; exact Option.noConfusion hn
  · rw [if_neg hnt] at hn
    rw [slotDetach_snd]
    by_cases ht : st.1 t = some r
    · have e1 := h t r ht
      have e2 := h n r hn
      rw [e1] at e2
      exact absurd (Option.some.inj e2).symm hnt
    · rw [if_neg ht]; exact h n r hn

theorem slotAttach_consistent (st : (ObjId → Option CompId) × (CompId → Option ObjId))
    (this : ObjId) (item : CompId) (h : ∀ n r, st.1 n = some r → st.2 r = some n) :
    ∀ n r, (slotAttach st this this item).1 n = some r →
      (slotAttach st this this item).2 r = some n := by
  have h1 := slotDetach_consistent st this h
  have h2 : ∀ n r,
      (match (slotDetach st this).2 item with
        | some o => slotDetach (slotDetach st this) o
        | none => slotDetach st this).1 n = some r →
      (match (slotDetach st this).2 item with
        | some o => slotDetach (slotDetach st this) o
        | none => slotDetach st this).2 r = some n := by
    cases ho : (slotDetach st this).2 item with
    | none => exact h1
    | some o => exact slotDetach_consistent _ o h1
  have h3 : ∀ n, n ≠ this →
      (match (slotDetach st this).2 item with
        | some o => slotDetach (slotDetach st this) o
        | none => slotDetach st this).1 n ≠ some item := by
    intro n hn hc
    cases ho : (slotDetach st this).2 item with
    | none =>
      rw [ho] at hc
      have := h1 n item hc
      rw [ho] at this
      exact Option.noConfusion this
    | some o =>
      rw [ho] at hc
      dsimp only at hc
      rw [slotDetach_fst] at hc
      by_cases hno : n = o
      · rw [if_pos hno] at hc; exact Option.noConfusion hc
      · rw [if_neg hno] at hc
        have := h1 n item hc
        rw [ho] at this
        exact hno (Option.some.inj this).symm
  intro n r hn
  rw [slotAttach_eq] at hn ⊢
  dsimp only at hn ⊢
  by_cases hnt : n = this
  · subst hnt
    rw [Function.update_same] at hn
    rw [← Option.some.inj hn, Function.update_same]
  · rw [Function.update_noteq hnt] at hn
    have hri : r ≠ item := fun e => h3 n hnt (e ▸ hn)
    rw [Function.update_noteq hri]
    exact h2 n r hn

/-- Claim C9 (render-payload exclusivity): for distinct objects `A` and `B` and a render
payload `R`, on a heap where a slot holding `R` belongs to the owner of `R` and every
dirty walk ends within `K` steps, `attachRenderData(A, R)` followed by
`attachRenderData(B, R)` both return (with any fuel from `K` on), and afterwards the slot
of `A` is empty, the slot of `B` holds `R`, and the owner of `R` is `B`. -/
theorem attachRenderData_exclusive (s : Scene R M) (A B : ObjId) (r : CompId) (hAB : A ≠ B)
    (hcons : ∀ n, s.render_data_ n = some r → s.render_data_owner r = some n)
    (K fuel : Nat) (hK : ∀ n, chainEnds s K n = true) (hf : K ≤ fuel) :
    ∃ s1 s2, attachRenderData fuel s A A r = some s1 ∧
      attachRenderData fuel s1 B B r = some s2 ∧
      s2.render_data_ A = none ∧ s2.render_data_ B = some r ∧
      s2.render_data_owner r = some B := by
  obtain ⟨s1, h1, e1, hK1⟩ := attachRenderData_spec s K fuel hK hf A A r
  obtain ⟨s2, h2, e2, _⟩ := attachRenderData_spec s1 K fuel hK1 hf B B r
  have hself := slotAttach_self (s.render_data_, s.render_data_owner) A A r
  have hother := slotAttach_other (s.render_data_, s.render_data_owner) A B r hAB hcons
  rw [← e1] at hself hother
  have hfin := slotAttach_steal (s1.render_data_, s1.render_data_owner) A B r hAB
    hself.2 hother
  rw [← e2] at hfin
  exact ⟨s1, s2, h1, h2, hfin⟩

/-- Witness for C9: fresh objects 0 and 1 and the render payload 7. -/
theorem attachRenderData_exclusive_witness :
    ∃ s1 s2 : Scene ℤ Unit, attachRenderData 1 scene0 0 0 7 = some s1 ∧
      attachRenderData 1 s1 1 1 7 = some s2 ∧
      s2.render_data_ 0 = none ∧ s2.render_data_ 1 = some 7 ∧
      s2.render_data_owner 7 = some 1 :=
  attachRenderData_exclusive scene0 0 1 7 (by decide) (fun _ h => Option.noConfusion h)
    1 1 (fun _ => rfl) (Nat.le_refl 1)

/-- Claim C10 fails on the code for transforms: `attachTransform` calls
`owner_object->detachRenderData()` on the previous owner, not `detachTransform()`. After
`attachTransform(0, 7)` and `attachTransform(1, 7)` on fresh objects, the transform slots
of both 0 and 1 hold transform 7, whose owner is 1. -/
theorem attachTransform_shared :
    ∃ s1 s2 : Scene ℤ Unit, attachTransform 1 scene0 0 0 7 = some s1 ∧
      attachTransform 1 s1 1 1 7 = some s2 ∧
      s2.transform_ 0 = some 7 ∧ s2.transform_ 1 = some 7 ∧ s2.transform_owner 7 = some 1 :=
  ⟨_, _, rfl, rfl, rfl, rfl, rfl⟩

end Attach

end GVRf

namespace GVRf

section Bounds

variable {R M : Type}

theorem SameButBounds.refl (s : Scene R M) : SameButBounds s s :=
  ⟨s.bounding_volume_dirty_, s.transformed_bounding_volume_, s.mesh_bounding_volume, rfl⟩

theorem SameButBounds.trans {s s1 s2 : Scene R M} (h1 : SameButBounds s s1)
    (h2 : SameButBounds s1 s2) : SameButBounds s s2 := by
  obtain ⟨d1, t1, m1, rfl⟩ := h1
  obtain ⟨d2, t2, m2, rfl⟩ := h2
  exact ⟨d2, t2, m2, rfl⟩

theorem WellFormed.of_same {s s1 : Scene R M} {rank : ObjId → Nat} (h : WellFormed s rank)
    (h1 : SameButBounds s s1) : WellFormed s1 rank := by
  obtain ⟨d1, t1, m1, rfl⟩ := h1
  exact h

theorem meshStep_returns (env : Collab R M) (s : Scene R M) (rank : ObjId → Nat)
    (hwf : WellFormed s rank) (this : ObjId) :
    ∃ s1, meshStep env s this = some s1 ∧ SameButBounds s s1 ∧
      s1.bounding_volume_dirty_ = s.bounding_volume_dirty_ := by
  unfold meshStep
  cases hr : s.render_data_ this with
  | none => exact ⟨s, rfl, SameButBounds.refl s, rfl⟩
  | some rd =>
    dsimp only
    cases hm : s.mesh rd with
    | none => exact ⟨s, rfl, SameButBounds.refl s, rfl⟩
    | some v =>
      dsimp only
      cases ht : s.transform_ this with
      | none => exact absurd ht (hwf.2 this rd v hr hm)
      | some t => exact ⟨_, rfl, ⟨_, _, _, rfl⟩, rfl⟩

theorem expandLoop_returns (env : Collab R M) (rank : ObjId → Nat)
    (g : Scene R M → ObjId → Outcome (Scene R M) (BoundingVolume R)) (this : ObjId)
    (cs : List ObjId)
    (hg : ∀ s c, c ∈ cs → WellFormed s rank → ∃ v s1, g s c = .ret v s1 ∧ SameButBounds s s1) :
    ∀ s, WellFormed s rank → ∃ s1, expandLoop env g this cs s = .ret () s1 ∧ SameButBounds s s1 := by
  induction cs with
  | nil => intro s _; exact ⟨s, rfl, SameButBounds.refl s⟩
  | cons c cs ih =>
    intro s hwf
    obtain ⟨v, s1, h1, hs1⟩ := hg s c (List.mem_cons_self c cs) hwf
    have hstep : SameButBounds s1
        { s1 with
          transformed_bounding_volume_ :=
            Function.update s1.transformed_bounding_volume_ this
              (env.bvExpand (s1.transformed_bounding_volume_ this) v) } := ⟨_, _, _, rfl⟩
    obtain ⟨s2, h2, hs2⟩ := ih (fun s' c' hc' hw' => hg s' c' (List.mem_cons_of_mem c hc') hw')
      _ ((hwf.of_same hs1).of_same hstep)
    refine ⟨s2, ?_, (hs1.trans hstep).trans hs2⟩
    rw [expandLoop, h1]
    exact h2

theorem getBoundingVolume_returns (env : Collab R M) (rank : ObjId → Nat) :
    ∀ (fuel : Nat) (s : Scene R M) (this : ObjId), WellFormed s rank → rank this < fuel →
      ∃ v s1, getBoundingVolume env fuel s this = .ret v s1 ∧ SameButBounds s s1 ∧
        s1.bounding_volume_dirty_ this = false ∧ v = s1.transformed_bounding_volume_ this := by
  intro fuel
  induction fuel with
  | zero => intro s this _ h; exact absurd h (Nat.not_lt_zero _)
  | succ fuel ih =>
    intro s this hwf hlt
    by_cases hd : s.bounding_volume_dirty_ this = false
    · exact ⟨_, s, by simp [getBoundingVolume, hd], SameButBounds.refl s, hd, rfl⟩
    · obtain ⟨s1, hm, hs1, _⟩ := meshStep_returns env s rank hwf this
      have hch : s1.children_ this = s.children_ this := by
        obtain ⟨d, t, m, rfl⟩ := hs1; rfl
      obtain ⟨s2, hl, hs2⟩ := expandLoop_returns env rank
        (fun s c => getBoundingVolume env fuel s c) this (s1.children_ this)
        (fun s' c hc hw' => by
          have hrc : rank c < rank this := hwf.1 this c (hch ▸ hc)
          obtain ⟨v, s'', h1, h2, _, _⟩ := ih s' c hw' (by omega)
          exact ⟨v, s'', h1, h2⟩)
        s1 (hwf.of_same hs1)
      have hs3 : SameButBounds s2
          { s2 with
            bounding_volume_dirty_ := Function.update s2.bounding_volume_dirty_ this false } :=
        ⟨_, _, _, rfl⟩
      refine ⟨_, _, ?_, (hs1.trans hs2).trans hs3, ?_, rfl⟩
      · rw [getBoundingVolume, if_neg hd, hm]
        simp only
        rw [hl]
      · simp

theorem verdictList_range (a b c d : Bool) (n : Nat) (e : Bool) :
    verdictList a b c d n e = 0 ∨ verdictList a b c d n e = 1 ∨ verdictList a b c d n e = 2 := by
  unfold verdictList
  split_ifs <;> simp

/-- Claim C4 (frustum verdict): on a well-formed tree, with a camera whose owner has a
transform, `frustumCull` returns (for any fuel above the rank of the object) the first
applicable entry of the ordered list: 0 if the object is not visible, 0 if the box test
rejects the volume returned by `getBoundingVolume`, 1 without render payload or without
material on pass 0, 0 if the LOD check fails on the squared camera distance of the
centre of that volume, 1 if the object has a child and the box test rejects its cached
mesh volume, else 2. The verdict is 0, 1 or 2, and a childless object that passes the
first four checks gets 2. -/
theorem frustumCull_verdict [LinearOrderedCommRing R] (env : Collab R M) (s : Scene R M)
    (rank : ObjId → Nat) (hwf : WellFormed s rank) (this : ObjId) (camera : CompId)
    (owner : ObjId) (t : CompId) (hcam : s.camera_owner camera = some owner)
    (hct : s.transform_ owner = some t) (frustum : Fin 6 → Fin 4 → R) (fuel : Nat)
    (hfuel : rank this < fuel) :
    ∃ bv s1 verdict s2,
      getBoundingVolume env fuel s this = .ret bv s1 ∧
      frustumCull env fuel s this camera frustum = .ret verdict s2 ∧
      verdict = verdictList (s.visible_ this) (!is_cube_in_frustum frustum bv)
        (match s.render_data_ this with
          | none => true
          | some rd => !s.material0 rd)
        (!inLODRange s this (cameraDistance bv.center (s.position t)))
        (s.children_ this).length
        (!is_cube_in_frustum frustum (s1.mesh_bounding_volume this)) ∧
      (verdict = 0 ∨ verdict = 1 ∨ verdict = 2) ∧
      (s.visible_ this = true → is_cube_in_frustum frustum bv = true →
        (∃ rd, s.render_data_ this = some rd ∧ s.material0 rd = true) →
        inLODRange s this (cameraDistance bv.center (s.position t)) = true →
        s.children_ this = [] → verdict = 2) := by
  obtain ⟨bv, s1, hbv, hs1, _, _⟩ := getBoundingVolume_returns env rank fuel s this hwf hfuel
  obtain ⟨d, tb, mb, rfl⟩ := hs1
  have key : ∃ verdict s2, frustumCull env fuel s this camera frustum = .ret verdict s2 ∧
      verdict = verdictList (s.visible_ this) (!is_cube_in_frustum frustum bv)
        (match s.render_data_ this with
          | none => true
          | some rd => !s.material0 rd)
        (!inLODRange s this (cameraDistance bv.center (s.position t)))
        (s.children_ this).length
        (!is_cube_in_frustum frustum (mb this)) := by
    unfold frustumCull
    by_cases hv : s.visible_ this = false
    · rw [if_pos hv]
      exact ⟨0, s, rfl, by simp [verdictList, hv]⟩
    · have hv1 : s.visible_ this = true := by simpa using hv
      rw [if_neg hv, hbv]
      by_cases hin : is_cube_in_frustum frustum bv = false
      · dsimp only
        rw [if_pos hin]
        exact ⟨0, _, rfl, by simp [verdictList, hv1, hin]⟩
      · have hin1 : is_cube_in_frustum frustum bv = true := by simpa using hin
        dsimp only
        rw [if_neg hin, hin1]
        unfold cullAfterBoundsTest
        dsimp only
        cases hr : s.render_data_ this with
        | none => exact ⟨1, _, rfl, by simp [verdictList, hv1, hin1]⟩
        | some rd =>
          dsimp only
          by_cases hm : s.material0 rd = false
          · rw [if_pos hm]
            exact ⟨1, _, rfl, by simp [verdictList, hv1, hin1, hm]⟩
          · have hm1 : s.material0 rd = true := by simpa using hm
            rw [if_neg hm, hcam]
            dsimp only
            rw [hct]
            dsimp only
            by_cases hl : inLODRange s this (cameraDistance bv.center (s.position t)) = false
            · have hl2 : inLODRange
                  { s with
                    bounding_volume_dirty_ := d
                    transformed_bounding_volume_ := tb
                    mesh_bounding_volume := mb
                    camera_distance := Function.update s.camera_distance rd
                      (cameraDistance bv.center (s.position t)) }
                  this (cameraDistance bv.center (s.position t)) = false := hl
              rw [if_pos hl2]
              exact ⟨0, _, rfl, by simp [verdictList, hv1, hin1, hm1, hl]⟩
            · have hl1 : inLODRange s this (cameraDistance bv.center (s.position t)) = true := by
                simpa using hl
              have hl2 : ¬ inLODRange
                  { s with
                    bounding_volume_dirty_ := d
                    transformed_bounding_volume_ := tb
                    mesh_bounding_volume := mb
                    camera_distance := Function.update s.camera_distance rd
                      (cameraDistance bv.center (s.position t)) }
                  this (cameraDistance bv.center (s.position t)) = false := hl
              rw [if_neg hl2]
              refine ⟨_, _, rfl, ?_⟩
              cases hc : s.children_ this with
              | nil => simp [verdictList, hv1, hin1, hm1, hl1]
              | cons c cs =>
                cases hmesh : is_cube_in_frustum frustum (mb this) <;>
                  simp [verdictList, hv1, hin1, hm1, hl1, hmesh]
  obtain ⟨verdict, s2, hcull, hverdict⟩ := key
  refine ⟨bv, _, verdict, s2, hbv, hcull, hverdict, ?_, ?_⟩
  · rw [hverdict]; exact verdictList_range _ _ _ _ _ _
  · rintro hv hin ⟨rd, hr, hm⟩ hl hc
    rw [hverdict]
    simp [verdictList, hv, hin, hr, hm, hl, hc]

theorem sceneCam_wellFormed : WellFormed sceneCam (fun _ => 0) := by
  refine ⟨fun n c hc => ?_, fun n rd v hr _ => ?_⟩
  · exact absurd hc (List.not_mem_nil c)
  · by_cases hn : n = 0
    · subst hn; exact fun h => Option.noConfusion h
    · have : sceneCam.render_data_ n = none := if_neg hn
      rw [this] at hr
      exact Option.noConfusion hr

/-- Witness for C4: object 0 of `sceneCam` (render payload, material, no child), camera 3,
the planes of `frustum10`. -/
theorem frustumCull_verdict_witness :
    ∃ bv s1 verdict s2,
      getBoundingVolume (envT 5) 1 sceneCam 0 = .ret bv s1 ∧
      frustumCull (envT 5) 1 sceneCam 0 3 frustum10 = .ret verdict s2 ∧
      verdict = verdictList (sceneCam.visible_ 0) (!is_cube_in_frustum frustum10 bv)
        (match sceneCam.render_data_ 0 with
          | none => true
          | some rd => !sceneCam.material0 rd)
        (!inLODRange sceneCam 0 (cameraDistance bv.center (sceneCam.position 8)))
        (sceneCam.children_ 0).length
        (!is_cube_in_frustum frustum10 (s1.mesh_bounding_volume 0)) ∧
      (verdict = 0 ∨ verdict = 1 ∨ verdict = 2) ∧
      (sceneCam.visible_ 0 = true → is_cube_in_frustum frustum10 bv = true →
        (∃ rd, sceneCam.render_data_ 0 = some rd ∧ sceneCam.material0 rd = true) →
        inLODRange sceneCam 0 (cameraDistance bv.center (sceneCam.position 8)) = true →
        sceneCam.children_ 0 = [] → verdict = 2) :=
  frustumCull_verdict (envT 5) sceneCam (fun _ => 0) sceneCam_wellFormed 0 3 2 8 rfl rfl
    frustum10 1 (by decide)

/-- Claim C3 fails on the code: without a mesh, `getBoundingVolume` does not reset
`transformed_bounding_volume_`. First run: object 0 gets render payload 5 (mesh volume
`cube 2 4`) and transform 9; `getBoundingVolume` returns `cube 2 4`; the payload is
detached, so object 0 has no mesh and no child and is dirty; `getBoundingVolume` still
returns `cube 2 4`, not the empty volume. Second run: object 1 gets the payload and the
transform and becomes the only child of the mesh-less object 0; `getBoundingVolume` of
object 0 returns `cube 2 4`; the child is removed; `getBoundingVolume` of object 0 still
returns `cube 2 4`. -/
theorem getBoundingVolume_stale :
    (∃ (s1 s2 s3 s4 s5 : Scene ℤ Unit) (v1 v2 : BoundingVolume ℤ),
      attachRenderData 1 sceneMesh 0 0 5 = some s1 ∧
      attachTransform 1 s1 0 0 9 = some s2 ∧
      getBoundingVolume (envT 5) 1 s2 0 = .ret v1 s3 ∧ v1 = cube 2 4 ∧
      detachRenderData 1 s3 0 = some s4 ∧
      s4.render_data_ 0 = none ∧ s4.children_ 0 = [] ∧ s4.bounding_volume_dirty_ 0 = true ∧
      getBoundingVolume (envT 5) 1 s4 0 = .ret v2 s5 ∧ v2 = cube 2 4 ∧ v2 ≠ bvEmpty) ∧
    (∃ (s1 s2 s3 s4 s5 s6 : Scene ℤ Unit) (v1 v2 : BoundingVolume ℤ),
      attachRenderData 2 sceneMesh 1 1 5 = some s1 ∧
      attachTransform 2 s1 1 1 9 = some s2 ∧
      addChildObject 2 s2 0 0 1 = .ret () s3 ∧
      getBoundingVolume (envT 5) 2 s3 0 = .ret v1 s4 ∧ v1 = cube 2 4 ∧
      removeChildObject 2 s4 0 1 = some s5 ∧
      s5.render_data_ 0 = none ∧ s5.children_ 0 = [] ∧ s5.bounding_volume_dirty_ 0 = true ∧
      getBoundingVolume (envT 5) 2 s5 0 = .ret v2 s6 ∧ v2 = cube 2 4 ∧ v2 ≠ bvEmpty) :=
  ⟨⟨_, _, _, _, _, _, _, rfl, rfl, rfl, rfl, rfl, rfl, rfl, rfl, rfl, rfl, by decide⟩,
   ⟨_, _, _, _, _, _, _, _, rfl, rfl, rfl, rfl, rfl, rfl, rfl, rfl, rfl, rfl, rfl, by decide⟩⟩

end Bounds

end GVRf

namespace GVRf

section BoxTestMore

variable {R M : Type} [LinearOrderedCommRing R]

/-- Claim C19 (box-outside-plane test): `is_cube_in_frustum` returns false exactly when one
of the six planes has `a*x + b*y + c*z + d <= 0` at all eight corners of
`{Xmin,Xmax} x {Ymin,Ymax} x {Zmin,Zmax}`, and returns true otherwise. -/
theorem is_cube_in_frustum_false_iff (frustum : Fin 6 → Fin 4 → R) (v : BoundingVolume R) :
    (is_cube_in_frustum frustum v = false ↔ ∃ p : Fin 6, PlaneRejects frustum v p) ∧
    (is_cube_in_frustum frustum v = true ↔ ¬ ∃ p : Fin 6, PlaneRejects frustum v p) := by
  have h := is_cube_in_frustum_iff frustum v
  constructor
  · rw [← Bool.not_eq_true, h]
    exact ⟨fun hn => by_contra fun hc => hn (fun p hp => hc ⟨p, hp⟩), fun ⟨p, hp⟩ hn => hn p hp⟩
  · rw [h]
    exact ⟨fun hn ⟨p, hp⟩ => hn p hp, fun hn p hp => hn ⟨p, hp⟩⟩

theorem planeRejects_of_contains (frustum : Fin 6 → Fin 4 → R) (A B : BoundingVolume R)
    (hx : B.min_corner.x ≤ A.min_corner.x ∧ A.min_corner.x ≤ A.max_corner.x ∧
      A.max_corner.x ≤ B.max_corner.x)
    (hy : B.min_corner.y ≤ A.min_corner.y ∧ A.min_corner.y ≤ A.max_corner.y ∧
      A.max_corner.y ≤ B.max_corner.y)
    (hz : B.min_corner.z ≤ A.min_corner.z ∧ A.min_corner.z ≤ A.max_corner.z ∧
      A.max_corner.z ≤ B.max_corner.z)
    (p : Fin 6) (h : PlaneRejects frustum B p) : PlaneRejects frustum A p := by
  intro x hxm y hym z hzm
  by_contra hpos
  have hin : ∀ (c lo hi blo bhi : R), blo ≤ lo ∧ lo ≤ hi ∧ hi ≤ bhi → c ∈ [lo, hi] →
      blo ≤ c ∧ c ≤ bhi := by
    intro c lo hi blo bhi hb hc
    simp only [List.mem_cons, List.mem_singleton, List.not_mem_nil, or_false] at hc
    rcases hc with rfl | rfl
    · exact ⟨hb.1, le_trans hb.2.1 hb.2.2⟩
    · exact ⟨le_trans hb.1 hb.2.1, hb.2.2⟩
  exact not_planeRejects_of_point frustum B p x y z (hin x _ _ _ _ hx hxm)
    (hin y _ _ _ _ hy hym) (hin z _ _ _ _ hz hzm) (not_le.mp hpos) h

/-- Claim C20 (monotonicity of the box test under containment): for six planes and boxes
`A`, `B` with `B.min <= A.min <= A.max <= B.max` on each axis, if `is_cube_in_frustum`
accepts `A` it accepts `B`; so `frustumCull` of a visible object whose hierarchical
volume is `B` goes on to the code after the bounds test instead of returning 0 there. -/
theorem is_cube_in_frustum_mono (frustum : Fin 6 → Fin 4 → R) (A B : BoundingVolume R)
    (hx : B.min_corner.x ≤ A.min_corner.x ∧ A.min_corner.x ≤ A.max_corner.x ∧
      A.max_corner.x ≤ B.max_corner.x)
    (hy : B.min_corner.y ≤ A.min_corner.y ∧ A.min_corner.y ≤ A.max_corner.y ∧
      A.max_corner.y ≤ B.max_corner.y)
    (hz : B.min_corner.z ≤ A.min_corner.z ∧ A.min_corner.z ≤ A.max_corner.z ∧
      A.max_corner.z ≤ B.max_corner.z)
    (hA : is_cube_in_frustum frustum A = true) :
    is_cube_in_frustum frustum B = true ∧
    ∀ (env : Collab R M) (fuel : Nat) (s s1 : Scene R M) (this : ObjId) (camera : CompId),
      s.visible_ this = true → getBoundingVolume env fuel s this = .ret B s1 →
      frustumCull env fuel s this camera frustum
        = cullAfterBoundsTest s1 this camera frustum B true := by
  have hB : is_cube_in_frustum frustum B = true :=
    (is_cube_in_frustum_iff frustum B).mpr (fun p hp =>
      (is_cube_in_frustum_iff frustum A).mp hA p
        (planeRejects_of_contains frustum A B hx hy hz p hp))
  refine ⟨hB, ?_⟩
  intro env fuel s s1 this camera hvis hbv
  simp [frustumCull, hvis, hbv, hB]

/-- Witness for C20: the cube with corners 0 and 2 inside the cube with corners -1 and 3,
and the planes of `frustum10`. -/
theorem is_cube_in_frustum_mono_witness :
    is_cube_in_frustum frustum10 (cube (-1) 3) = true ∧
    ∀ (env : Collab ℤ Unit) (fuel : Nat) (s s1 : Scene ℤ Unit) (this : ObjId) (camera : CompId),
      s.visible_ this = true → getBoundingVolume env fuel s this = .ret (cube (-1) 3) s1 →
      frustumCull env fuel s this camera frustum10
        = cullAfterBoundsTest s1 this camera frustum10 (cube (-1) 3) true :=
  is_cube_in_frustum_mono frustum10 (cube 0 2) (cube (-1) 3) (by decide) (by decide) (by decide)
    (by decide)

end BoxTestMore

end GVRf

namespace GVRf

section Index

variable {R M : Type}

theorem emod_of_int_index (P i : Int) (hP : 2 ^ 31 ≤ P) (hi : -2 ^ 31 ≤ i ∧ i < 2 ^ 31) :
    i % P = if 0 ≤ i then i else i + P := by
  split_ifs with h
  · exact Int.emod_eq_of_lt h (by omega)
  · have h1 : (i + P) % P = i % P := by simp
    rw [← h1]
    exact Int.emod_eq_of_lt (by omega) (by omega)

/-- Claim C11 (indexed child access): for an object with `n` children and an `int` index
`i` (the index is compared with the unsigned `w`-bit child count as `i % 2^w`, and the
count leaves room for the negative indices: `n + 2^31 <= 2^w`), `getChildByIndex(i)`
returns the `i`-th child when `0 <= i < n`, and throws the out-of-index error exactly
when `i` is outside that range, so for every negative `i`; the heap is left as it was. -/
theorem getChildByIndex_spec (w : Nat) (s : Scene R M) (this : ObjId) (i : Int)
    (hi : -2 ^ 31 ≤ i ∧ i < 2 ^ 31)
    (hn : ((s.children_ this).length : Int) + 2 ^ 31 ≤ 2 ^ w) :
    (0 ≤ i → i < (s.children_ this).length →
      ∃ c, (s.children_ this)[i.toNat]? = some c ∧ getChildByIndex w s this i = .ret c s) ∧
    (getChildByIndex w s this i = .threw indexError s ↔
      ¬ (0 ≤ i ∧ i < (s.children_ this).length)) ∧
    (i < 0 → getChildByIndex w s this i = .threw indexError s) := by
  have hP : (2 : Int) ^ 31 ≤ 2 ^ w := by
    have : (0 : Int) ≤ (s.children_ this).length := Int.natCast_nonneg _
    omega
  have hmod := emod_of_int_index (2 ^ w) i hP hi
  have hin : 0 ≤ i → i < (s.children_ this).length →
      ∃ c, (s.children_ this)[i.toNat]? = some c ∧ getChildByIndex w s this i = .ret c s := by
    intro h0 hlt
    have hu : (i % 2 ^ w).toNat < (s.children_ this).length := by
      rw [hmod, if_pos h0]; omega
    refine ⟨(s.children_ this).get ⟨(i % 2 ^ w).toNat, hu⟩, ?_, ?_⟩
    · have e : (i % 2 ^ w).toNat = i.toNat := by rw [hmod, if_pos h0]
      rw [List.getElem?_eq_getElem (e ▸ hu)]
      simp [e]
    · simp only [getChildByIndex]
      rw [dif_pos hu]
  have hout : ¬ (0 ≤ i ∧ i < (s.children_ this).length) →
      getChildByIndex w s this i = .threw indexError s := by
    intro hno
    have hu : ¬ (i % 2 ^ w).toNat < (s.children_ this).length := by
      rw [hmod]
      split_ifs with h0
      · omega
      · omega
    simp only [getChildByIndex]
    rw [dif_neg hu]
  refine ⟨hin, ⟨?_, hout⟩, fun hneg => hout (by omega)⟩
  intro hthrow hrange
  obtain ⟨c, _, hc⟩ := hin hrange.1 hrange.2
  rw [hc] at hthrow
  exact Outcome.noConfusion hthrow

/-- Witness for C11: object 0 of `sceneChain` has the single child 1; with a 32-bit size,
index 0 returns it and index -1 throws. -/
theorem getChildByIndex_spec_witness :
    getChildByIndex 32 sceneChain 0 0 = .ret 1 sceneChain ∧
    getChildByIndex 32 sceneChain 0 (-1) = .threw indexError sceneChain := by
  constructor
  · obtain ⟨c, hc1, hc2⟩ := (getChildByIndex_spec 32 sceneChain 0 0 (by norm_num)
      (by norm_num [sceneChain])).1 (le_refl 0) (by norm_num [sceneChain])
    have hc : c = 1 := by
      have : (sceneChain.children_ 0)[(0 : Int).toNat]? = some 1 := rfl
      rw [this] at hc1
      exact (Option.some.inj hc1).symm
    rw [← hc]; exact hc2
  · exact (getChildByIndex_spec 32 sceneChain 0 (-1) (by norm_num)
      (by norm_num [sceneChain])).2.2 (by norm_num)

end Index

end GVRf

namespace GVRf

section CacheAndCollision

variable {R M : Type}

/-- Claim C15 (idempotent caching): on an acyclic tree (children strictly below their
parent, mesh-bearing objects with a transform) `getBoundingVolume` returns and leaves the
dirty flag of the object false, and a second call, with any fuel, returns the same volume
and the very same heap: it takes the cached branch. -/
theorem getBoundingVolume_idempotent (env : Collab R M) (s : Scene R M) (rank : ObjId → Nat)
    (hwf : WellFormed s rank) (this : ObjId) (fuel : Nat) (hfuel : rank this < fuel) :
    ∃ v s1, getBoundingVolume env fuel s this = .ret v s1 ∧
      s1.bounding_volume_dirty_ this = false ∧
      ∀ fuel2, 0 < fuel2 → getBoundingVolume env fuel2 s1 this = .ret v s1 := by
  obtain ⟨v, s1, h1, _, hd, hv⟩ := getBoundingVolume_returns env rank fuel s this hwf hfuel
  refine ⟨v, s1, h1, hd, ?_⟩
  intro fuel2 h2
  obtain ⟨f, rfl⟩ : ∃ f, fuel2 = f + 1 := ⟨fuel2 - 1, by omega⟩
  rw [getBoundingVolume, if_pos hd, hv]

/-- Witness for C15: object 0 of `sceneCam`. -/
theorem getBoundingVolume_idempotent_witness :
    ∃ v s1, getBoundingVolume (envT 5) 1 sceneCam 0 = .ret v s1 ∧
      s1.bounding_volume_dirty_ 0 = false ∧
      ∀ fuel2, 0 < fuel2 → getBoundingVolume (envT 5) fuel2 s1 0 = .ret v s1 :=
  getBoundingVolume_idempotent (envT 5) sceneCam (fun _ => 0) sceneCam_wellFormed 0 1
    (by decide)

theorem strictOverlap_iff [LinearOrderedCommRing R] (a b : Fin 6 → R) :
    StrictOverlap a b ↔
      (a 3 > b 0 ∧ a 0 < b 3 ∧ a 4 > b 1 ∧ a 1 < b 4 ∧ a 5 > b 2 ∧ a 2 < b 5) := by
  unfold StrictOverlap
  constructor
  · intro h
    exact ⟨(h 0).1, (h 0).2, (h 1).1, (h 1).2, (h 2).1, (h 2).2⟩
  · rintro ⟨h1, h2, h3, h4, h5, h6⟩ axis
    fin_cases axis
    · exact ⟨h1, h2⟩
    · exact ⟨h3, h4⟩
    · exact ⟨h5, h6⟩

/-- Claim C17 (collision test): for two objects that each have a render payload with an
owner and a mesh, `isColliding` returns false when the owner of either payload has no
transform, and otherwise returns true exactly when the two world-space mesh boxes
overlap strictly on all three axes (`this.max > other.min` and `this.min < other.max` on
x, y and z, so boxes that only touch do not collide); the heap is left as it was. -/
theorem isColliding_spec [LinearOrderedCommRing R] (bb : BoundingVolume R → M → Fin 6 → R)
    (s : Scene R M) (a b : ObjId) (ra rb : CompId) (oa ob : ObjId) (ma mb : BoundingVolume R)
    (hra : s.render_data_ a = some ra) (hoa : s.render_data_owner ra = some oa)
    (hma : s.mesh ra = some ma)
    (hrb : s.render_data_ b = some rb) (hob : s.render_data_owner rb = some ob)
    (hmb : s.mesh rb = some mb) :
    (∀ ta tb, s.transform_ oa = some ta → s.transform_ ob = some tb →
      ∃ r, isColliding bb s a b = .ret r s ∧
        (r = true ↔ StrictOverlap (bb ma (s.model_matrix ta)) (bb mb (s.model_matrix tb)))) ∧
    (s.transform_ oa = none ∨ s.transform_ ob = none → isColliding bb s a b = .ret false s) := by
  constructor
  · intro ta tb hta htb
    have hcall : isColliding bb s a b = .ret
        (decide (bb ma (s.model_matrix ta) 3 > bb mb (s.model_matrix tb) 0
          ∧ bb ma (s.model_matrix ta) 0 < bb mb (s.model_matrix tb) 3
          ∧ bb ma (s.model_matrix ta) 4 > bb mb (s.model_matrix tb) 1
          ∧ bb ma (s.model_matrix ta) 1 < bb mb (s.model_matrix tb) 4
          ∧ bb ma (s.model_matrix ta) 5 > bb mb (s.model_matrix tb) 2
          ∧ bb ma (s.model_matrix ta) 2 < bb mb (s.model_matrix tb) 5)) s := by
      simp only [isColliding, hra, hoa, hta, hma, hrb, hob, htb, hmb]
    exact ⟨_, hcall, by rw [strictOverlap_iff, decide_eq_true_iff]⟩
  · intro h
    cases hta : s.transform_ oa with
    | none => simp only [isColliding, hra, hoa, hta]
    | some ta =>
      rcases h with h | h
      · rw [hta] at h; exact Option.noConfusion h
      · simp only [isColliding, hra, hoa, hta, hma, hrb, hob, h]

/-- Witness for C17: objects 0 and 1 of `sceneTwo`, whose boxes `[2,4]^3` and `[3,5]^3`
overlap. -/
theorem isColliding_spec_witness :
    (∀ ta tb, sceneTwo.transform_ 0 = some ta → sceneTwo.transform_ 1 = some tb →
      ∃ r, isColliding boxOf sceneTwo 0 1 = .ret r sceneTwo ∧
        (r = true ↔ StrictOverlap (boxOf (cube 2 4) (sceneTwo.model_matrix ta))
          (boxOf (cube 3 5) (sceneTwo.model_matrix tb)))) ∧
    (sceneTwo.transform_ 0 = none ∨ sceneTwo.transform_ 1 = none →
      isColliding boxOf sceneTwo 0 1 = .ret false sceneTwo) :=
  isColliding_spec boxOf sceneTwo 0 1 5 6 0 1 (cube 2 4) (cube 3 5) rfl rfl rfl rfl rfl rfl

end CacheAndCollision

end GVRf

namespace GVRf

section NoOps

variable {R M : Type}

/-- Claim C13, as stated, fails: in the chain 0 - 1 - 2 with clean bounds, object 5 has no
parent, yet `removeChildObject(1, 5)` sets the dirty flags of object 1 and of its
ancestor 0 (the call to `dirtyHierarchicalBoundingVolume` is outside the `if`). -/
theorem removeChildObject_non_child_dirties :
    ∃ (v : BoundingVolume ℤ) (s1 s2 : Scene ℤ Unit),
      getBoundingVolume (envT 5) 3 sceneChain 0 = .ret v s1 ∧
      s1.parent_ 5 = none ∧
      s1.bounding_volume_dirty_ 1 = false ∧ s1.bounding_volume_dirty_ 0 = false ∧
      removeChildObject 2 s1 1 5 = some s2 ∧
      s2.bounding_volume_dirty_ 1 = true ∧ s2.bounding_volume_dirty_ 0 = true :=
  ⟨_, _, _, rfl, rfl, rfl, rfl, rfl, rfl, rfl⟩

/-- Claim C13, amended: when the parent reference of `C` is not `P`, `removeChildObject(P, C)`
returns (the dirty walk from `P` ending within the fuel), leaves every children sequence
and every parent reference unchanged and clears no dirty flag, but the flag of `P` is
set afterwards; the heap is unchanged when `P` was already dirty and `C` has no
transform. -/
theorem removeChildObject_non_child (s : Scene R M) (P C : ObjId)
    (hnc : s.parent_ C ≠ some P) (fuel : Nat) (hK : chainEnds s fuel P = true) :
    ∃ s1, removeChildObject fuel s P C = some s1 ∧
      s1.children_ = s.children_ ∧ s1.parent_ = s.parent_ ∧
      (∀ m, s.bounding_volume_dirty_ m = true → s1.bounding_volume_dirty_ m = true) ∧
      s1.bounding_volume_dirty_ P = true ∧
      (s.bounding_volume_dirty_ P = true → s.transform_ C = none → s1 = s) := by
  have hrem : removeChildObject fuel s P C
      = dirtyHierarchicalBoundingVolume fuel
          (match s.transform_ C with
            | some t => invalidate s t
            | none => s) P := by
    simp only [removeChildObject, if_neg hnc]
  rw [hrem]
  cases ht : s.transform_ C with
  | none =>
    dsimp only
    obtain ⟨d, h1, h2, h3⟩ := dirty_returns fuel s P hK
    rw [h1]
    refine ⟨_, rfl, rfl, rfl, h2, h3, ?_⟩
    intro hd _
    obtain ⟨f, rfl⟩ : ∃ f, fuel = f + 1 :=
      ⟨fuel - 1, by cases fuel with
        | zero => simp [chainEnds] at hK
        | succ f => rfl⟩
    have hs : dirtyHierarchicalBoundingVolume (f + 1) s P = some s := by
      simp [dirtyHierarchicalBoundingVolume, hd]
    rw [hs] at h1
    exact (Option.some.inj h1).symm
  | some t =>
    dsimp only
    obtain ⟨d, h1, h2, h3⟩ := dirty_returns fuel (invalidate s t) P
      (chainEnds_more_dirty s (invalidate s t) (by rfl) (by exact fun _ hm => hm) fuel P hK)
    rw [h1]
    refine ⟨_, rfl, rfl, rfl, h2, h3, ?_⟩
    intro _ hc
    exact Option.noConfusion hc

/-- Witness for the amended C13: fresh objects 0 and 1. -/
theorem removeChildObject_non_child_witness :
    ∃ s1, removeChildObject 1 scene0 0 1 = some s1 ∧
      s1.children_ = scene0.children_ ∧ s1.parent_ = scene0.parent_ ∧
      (∀ m, scene0.bounding_volume_dirty_ m = true → s1.bounding_volume_dirty_ m = true) ∧
      s1.bounding_volume_dirty_ 0 = true ∧
      (scene0.bounding_volume_dirty_ 0 = true → scene0.transform_ 1 = none → s1 = scene0) :=
  removeChildObject_non_child scene0 0 1 (fun h => Option.noConfusion h) 1 rfl

/-- Claim C14, as stated, fails: object 0 of the chain 0 - 1 - 2 has clean bounds and an
empty transform slot and an empty render-data slot, yet `detachTransform` and
`detachRenderData` set its dirty flag (the call to `dirtyHierarchicalBoundingVolume` is
outside the `if`). -/
theorem detach_empty_slot_dirties :
    ∃ (v : BoundingVolume ℤ) (s1 s2 s3 : Scene ℤ Unit),
      getBoundingVolume (envT 5) 3 sceneChain 0 = .ret v s1 ∧
      s1.transform_ 1 = none ∧ s1.render_data_ 1 = none ∧
      s1.bounding_volume_dirty_ 1 = false ∧ s1.bounding_volume_dirty_ 0 = false ∧
      detachTransform 2 s1 1 = some s2 ∧
      s2.bounding_volume_dirty_ 1 = true ∧ s2.bounding_volume_dirty_ 0 = true ∧
      detachRenderData 2 s1 1 = some s3 ∧
      s3.bounding_volume_dirty_ 1 = true ∧ s3.bounding_volume_dirty_ 0 = true :=
  ⟨_, _, _, _, rfl, rfl, rfl, rfl, rfl, rfl, rfl, rfl, rfl, rfl, rfl⟩

/-- Claim C14, amended: on an empty slot, `detachCamera`, `detachCameraRig` and
`detachEyePointeeHolder` leave the whole heap unchanged; `detachTransform` and
`detachRenderData` return (the dirty walk ending within the fuel) a heap that differs
from the given one at most in the dirty flags, where no flag is cleared and the flag of
the object is set, and that is the given heap when the object was already dirty. -/
theorem detach_empty_slot (s : Scene R M) (this : ObjId) :
    (s.camera_ this = none → detachCamera s this = s) ∧
    (s.camera_rig_ this = none → detachCameraRig s this = s) ∧
    (s.eye_pointee_holder_ this = none → detachEyePointeeHolder s this = s) ∧
    (s.transform_ this = none → ∀ fuel, chainEnds s fuel this = true →
      ∃ d, detachTransform fuel s this = some { s with bounding_volume_dirty_ := d } ∧
        (∀ m, s.bounding_volume_dirty_ m = true → d m = true) ∧ d this = true ∧
        (s.bounding_volume_dirty_ this = true → d = s.bounding_volume_dirty_)) ∧
    (s.render_data_ this = none → ∀ fuel, chainEnds s fuel this = true →
      ∃ d, detachRenderData fuel s this = some { s with bounding_volume_dirty_ := d } ∧
        (∀ m, s.bounding_volume_dirty_ m = true → d m = true) ∧ d this = true ∧
        (s.bounding_volume_dirty_ this = true → d = s.bounding_volume_dirty_)) := by
  have key : ∀ fuel, chainEnds s fuel this = true →
      ∃ d, dirtyHierarchicalBoundingVolume fuel s this
          = some { s with bounding_volume_dirty_ := d } ∧
        (∀ m, s.bounding_volume_dirty_ m = true → d m = true) ∧ d this = true ∧
        (s.bounding_volume_dirty_ this = true → d = s.bounding_volume_dirty_) := by
    intro fuel hK
    by_cases hd : s.bounding_volume_dirty_ this = true
    · obtain ⟨f, rfl⟩ : ∃ f, fuel = f + 1 :=
        ⟨fuel - 1, by cases fuel with
          | zero => simp [chainEnds] at hK
          | succ f => rfl⟩
      exact ⟨s.bounding_volume_dirty_, by simp [dirtyHierarchicalBoundingVolume, hd],
        fun _ hm => hm, hd, fun _ => rfl⟩
    · obtain ⟨d, h1, h2, h3⟩ := dirty_returns fuel s this hK
      exact ⟨d, h1, h2, h3, fun h => absurd h hd⟩
  refine ⟨?_, ?_, ?_, ?_, ?_⟩
  · intro h; simp [detachCamera, h]
  · intro h; simp [detachCameraRig, h]
  · intro h; simp [detachEyePointeeHolder, h]
  · intro h fuel hK
    simp only [detachTransform, h]
    exact key fuel hK
  · intro h fuel hK
    simp only [detachRenderData, h]
    exact key fuel hK

end NoOps

end GVRf

namespace GVRf

section Walk

variable {R M : Type}

theorem dirty_some :
    ∀ (fuel : Nat) (s s1 : Scene R M) (this : ObjId),
      dirtyHierarchicalBoundingVolume fuel s this = some s1 →
      ∃ d, s1 = { s with bounding_volume_dirty_ := d } ∧
        (∀ m, s.bounding_volume_dirty_ m = true → d m = true) ∧ d this = true ∧
        (∀ E : ObjId → Prop, ClosedOutside E s →
          ClosedOutside E { s with bounding_volume_dirty_ := d }) := by
  intro fuel
  induction fuel with
  | zero => intro s s1 this h; simp [dirtyHierarchicalBoundingVolume] at h
  | succ fuel ih =>
    intro s s1 this h
    by_cases hd : s.bounding_volume_dirty_ this = true
    · simp only [dirtyHierarchicalBoundingVolume, hd, if_true] at h
      exact ⟨s.bounding_volume_dirty_, (Option.some.inj h).symm, fun _ hm => hm, hd,
        fun _ hE => hE⟩
    · have hd0 : s.bounding_volume_dirty_ this = false := by simpa using hd
      have hmono : ∀ m, s.bounding_volume_dirty_ m = true →
          Function.update s.bounding_volume_dirty_ this true m = true := by
        intro m hm
        by_cases hmt : m = this
        · rw [hmt, Function.update_same]
        · rw [Function.update_noteq hmt]; exact hm
      simp only [dirtyHierarchicalBoundingVolume, hd0] at h
      cases hq : s.parent_ this with
      | none =>
        rw [hq] at h
        simp only [Bool.false_eq_true, if_false] at h
        refine ⟨_, (Option.some.inj h).symm, hmono, by simp, ?_⟩
        intro E hE x p hx hp hdx
        by_cases hxt : x = this
        · rw [hxt, hq] at hp; exact Option.noConfusion hp
        · have hdx2 : s.bounding_volume_dirty_ x = true := by
            have e : Function.update s.bounding_volume_dirty_ this true x
                = s.bounding_volume_dirty_ x := Function.update_noteq hxt _ _
            exact e ▸ hdx
          exact hmono p (hE x p hx hp hdx2)
      | some q =>
        rw [hq] at h
        simp only [Bool.false_eq_true, if_false] at h
        obtain ⟨d, h1, h2, h3, h4⟩ := ih _ s1 q h
        refine ⟨d, h1, fun m hm => h2 m (hmono m hm), h2 this (by simp), ?_⟩
        intro E hE
        have hE1 : ClosedOutside (fun x => E x ∨ x = this)
            { s with bounding_volume_dirty_ :=
                Function.update s.bounding_volume_dirty_ this true } := by
          intro x p hx hp hdx
          have hxt : x ≠ this := fun e => hx (Or.inr e)
          have hdx2 : s.bounding_volume_dirty_ x = true := by
            have e : Function.update s.bounding_volume_dirty_ this true x
                = s.bounding_volume_dirty_ x := Function.update_noteq hxt _ _
            exact e ▸ hdx
          exact hmono p (hE x p (fun e => hx (Or.inl e)) hp hdx2)
        have hE2 := h4 _ hE1
        intro x p hx hp hdx
        by_cases hxt : x = this
        · have hpq : s.parent_ this = some p := hxt ▸ hp
          rw [hq] at hpq
          exact (Option.some.inj hpq) ▸ h3
        · exact hE2 x p (fun e => e.elim hx hxt) hp hdx

theorem ancestors_dirty (s : Scene R M) (h : ClosedOutside (fun _ => False) s) (x : ObjId)
    (hx : s.bounding_volume_dirty_ x = true) :
    ∀ (k : Nat) (a : ObjId), nthParent s x k = some a → s.bounding_volume_dirty_ a = true := by
  intro k
  induction k with
  | zero =>
    intro a ha
    have : x = a := by simpa [nthParent] using ha
    exact this ▸ hx
  | succ k ih =>
    intro a ha
    rw [nthParent] at ha
    cases hb : nthParent s x k with
    | none => rw [hb] at ha; exact Option.noConfusion ha
    | some b =>
      rw [hb] at ha
      exact h b a (fun e => e) ha (ih b hb)

end Walk

end GVRf

namespace GVRf

section TreeOps

variable {R M : Type}

theorem addChildObject_ret (fuel : Nat) (s s1 : Scene R M) (P C : ObjId)
    (h : addChildObject fuel s P P C = .ret () s1) :
    s1.children_ = Function.update s.children_ P (s.children_ P ++ [C]) ∧
    s1.parent_ = Function.update s.parent_ C (some P) ∧
    (∀ m, s.bounding_volume_dirty_ m = true → s1.bounding_volume_dirty_ m = true) ∧
    s1.bounding_volume_dirty_ P = true ∧
    (ClosedOutside (fun _ => False) s → ClosedOutside (fun _ => False) s1) := by
  unfold addChildObject at h
  cases hc : cycleLoop s C fuel (s.parent_ P) with
  | none => rw [hc] at h; exact Outcome.noConfusion h
  | some b =>
    rw [hc] at h
    cases b with
    | true => exact Outcome.noConfusion h
    | false =>
      dsimp only at h
      have key : ∀ s3 : Scene R M, s3.children_ = Function.update s.children_ P (s.children_ P ++ [C]) →
          s3.parent_ = Function.update s.parent_ C (some P) →
          s3.bounding_volume_dirty_ = s.bounding_volume_dirty_ →
          (match dirtyHierarchicalBoundingVolume fuel s3 P with
            | none => (Outcome.noFuel : Outcome (Scene R M) Unit)
            | some s4 => .ret () s4) = .ret () s1 →
          s1.children_ = Function.update s.children_ P (s.children_ P ++ [C]) ∧
          s1.parent_ = Function.update s.parent_ C (some P) ∧
          (∀ m, s.bounding_volume_dirty_ m = true → s1.bounding_volume_dirty_ m = true) ∧
          s1.bounding_volume_dirty_ P = true ∧
          (ClosedOutside (fun _ => False) s → ClosedOutside (fun _ => False) s1) := by
        intro s3 hch hpa hdi h3
        cases hdw : dirtyHierarchicalBoundingVolume fuel s3 P with
        | none => rw [hdw] at h3; exact Outcome.noConfusion h3
        | some s4 =>
          rw [hdw] at h3
          have e41 : s4 = s1 := by injection h3
          subst e41
          obtain ⟨d, hs4, hmono, hdP, hclosed⟩ := dirty_some fuel s3 s4 P hdw
          subst hs4
          refine ⟨hch, hpa, fun m hm => hmono m (hdi ▸ hm), hdP, ?_⟩
          intro hs
          have h3c : ClosedOutside (fun x => x = C) s3 := by
            intro x p hx hp hdx
            have hp2 : s.parent_ x = some p := by
              rw [hpa, Function.update_noteq hx] at hp; exact hp
            have := hs x p (fun e => e) hp2 (hdi ▸ hdx)
            exact hdi ▸ this
          have h4c := hclosed _ h3c
          intro x p _ hp hdx
          by_cases hxC : x = C
          · have hp2 : s3.parent_ x = some p := hp
            rw [hpa, hxC, Function.update_same] at hp2
            exact (Option.some.inj hp2) ▸ hdP
          · exact h4c x p hxC hp hdx
      cases ht : s.transform_ C with
      | none =>
        simp only [ht] at h
        exact key _ (by rfl) (by rfl) (by rfl) h
      | some t =>
        simp only [ht] at h
        exact key _ (by rfl) (by rfl) (by rfl) h

theorem removeChildObject_some (fuel : Nat) (s s1 : Scene R M) (P C : ObjId)
    (h : removeChildObject fuel s P C = some s1) :
    (s.parent_ C = some P →
      s1.children_ = Function.update s.children_ P ((s.children_ P).filter (· ≠ C)) ∧
      s1.parent_ = Function.update s.parent_ C none) ∧
    (s.parent_ C ≠ some P → s1.children_ = s.children_ ∧ s1.parent_ = s.parent_) ∧
    (∀ m, s.bounding_volume_dirty_ m = true → s1.bounding_volume_dirty_ m = true) ∧
    s1.bounding_volume_dirty_ P = true ∧
    (ClosedOutside (fun _ => False) s → ClosedOutside (fun _ => False) s1) := by
  have key : ∀ s3 : Scene R M, s3.bounding_volume_dirty_ = s.bounding_volume_dirty_ →
      dirtyHierarchicalBoundingVolume fuel s3 P = some s1 →
      (ClosedOutside (fun _ => False) s → ClosedOutside (fun _ => False) s3) →
      s1.children_ = s3.children_ ∧ s1.parent_ = s3.parent_ ∧
      (∀ m, s.bounding_volume_dirty_ m = true → s1.bounding_volume_dirty_ m = true) ∧
      s1.bounding_volume_dirty_ P = true ∧
      (ClosedOutside (fun _ => False) s → ClosedOutside (fun _ => False) s1) := by
    intro s3 hdi hdw hcl
    obtain ⟨d, hs1, hmono, hdP, hclosed⟩ := dirty_some fuel s3 s1 P hdw
    subst hs1
    exact ⟨rfl, rfl, fun m hm => hmono m (hdi ▸ hm), hdP, fun hs => hclosed _ (hcl hs)⟩
  unfold removeChildObject at h
  by_cases hpc : s.parent_ C = some P
  · rw [if_pos hpc] at h
    have hcl : ∀ s3 : Scene R M,
        s3.parent_ = Function.update s.parent_ C none →
        s3.bounding_volume_dirty_ = s.bounding_volume_dirty_ →
        ClosedOutside (fun _ => False) s → ClosedOutside (fun _ => False) s3 := by
      intro s3 hpa hdi hs x p _ hp hdx
      by_cases hxC : x = C
      · rw [hpa, hxC, Function.update_same] at hp; exact Option.noConfusion hp
      · rw [hpa, Function.update_noteq hxC] at hp
        have := hs x p (fun e => e) hp (hdi ▸ hdx)
        exact hdi ▸ this
    cases ht : s.transform_ C with
    | none =>
      simp only [ht] at h
      obtain ⟨k1, k2, k3, k4, k5⟩ := key _ (by rfl) h (hcl _ (by rfl) (by rfl))
      exact ⟨fun _ => ⟨k1, k2⟩, fun hn => absurd hpc hn, k3, k4, k5⟩
    | some t =>
      simp only [ht] at h
      obtain ⟨k1, k2, k3, k4, k5⟩ := key _ (by rfl) h (hcl _ (by rfl) (by rfl))
      exact ⟨fun _ => ⟨k1, k2⟩, fun hn => absurd hpc hn, k3, k4, k5⟩
  · rw [if_neg hpc] at h
    cases ht : s.transform_ C with
    | none =>
      simp only [ht] at h
      obtain ⟨k1, k2, k3, k4, k5⟩ := key _ (by rfl) h (by exact fun hs => hs)
      exact ⟨fun hn => absurd hn hpc, fun _ => ⟨k1, k2⟩, k3, k4, k5⟩
    | some t =>
      simp only [ht] at h
      obtain ⟨k1, k2, k3, k4, k5⟩ := key _ (by rfl) h (by exact fun hs => hs)
      exact ⟨fun hn => absurd hn hpc, fun _ => ⟨k1, k2⟩, k3, k4, k5⟩

end TreeOps

end GVRf

namespace GVRf

section Ownership

variable {R M : Type}

theorem scene0_isFresh : scene0.IsFresh :=
  ⟨fun _ => rfl, fun _ => rfl, fun _ => rfl, fun _ => ⟨rfl, rfl, rfl, rfl, rfl⟩,
    fun _ => ⟨rfl, rfl, rfl, rfl, rfl⟩, fun _ => ⟨rfl, rfl, rfl⟩⟩

/-- Claim C18, as stated, fails: `addChildObject` never takes the child out of the children
sequence of its previous parent and never looks for the child in its own sequence. From
fresh objects, `addChildObject(0, 2)` then `addChildObject(1, 2)` leaves object 2 in the
sequences of both 0 and 1 with parent reference 1; `addChildObject(0, 2)` twice leaves
object 2 twice in the sequence of 0. -/
theorem addChildObject_shared_child :
    (∃ s : Scene ℤ Unit, TreeReachable s ∧ s.children_ 0 = [2] ∧ s.children_ 1 = [2] ∧
      s.parent_ 2 = some 1) ∧
    (∃ s : Scene ℤ Unit, TreeReachable s ∧ s.children_ 0 = [2, 2]) :=
  ⟨⟨_, TreeReachable.addChild 1 _ 1 2 _
      (TreeReachable.addChild 1 scene0 0 2 _ (TreeReachable.fresh scene0 scene0_isFresh) rfl)
      rfl, rfl, rfl, rfl⟩,
   ⟨_, TreeReachable.addChild 1 _ 0 2 _
      (TreeReachable.addChild 1 scene0 0 2 _ (TreeReachable.fresh scene0 scene0_isFresh) rfl)
      rfl, rfl⟩⟩

theorem singleParent_addChild (s s1 : Scene R M) (P C : ObjId) (h : SingleParent s)
    (hpar : s.parent_ C = none)
    (hch : s1.children_ = Function.update s.children_ P (s.children_ P ++ [C]))
    (hpa : s1.parent_ = Function.update s.parent_ C (some P)) : SingleParent s1 := by
  have hC : ∀ p, C ∉ s.children_ p := by
    intro p hm
    have := (h.2 C p).mp hm
    rw [hpar] at this
    exact Option.noConfusion this
  constructor
  · intro p
    rw [hch]
    by_cases hp : p = P
    · subst hp
      rw [Function.update_same]
      exact List.Nodup.append (h.1 p) (List.nodup_singleton C)
        (by
          intro a ha hb
          rw [List.mem_singleton] at hb
          exact hC p (hb ▸ ha))
    · rw [Function.update_noteq hp]; exact h.1 p
  · intro c p
    rw [hch, hpa]
    by_cases hc : c = C
    · subst hc
      rw [Function.update_same]
      by_cases hp : p = P
      · subst hp
        rw [Function.update_same]
        exact ⟨fun _ => rfl, fun _ => List.mem_append_right _ (List.mem_singleton.mpr rfl)⟩
      · rw [Function.update_noteq hp]
        exact ⟨fun hm => absurd hm (hC p), fun e => absurd (Option.some.inj e).symm hp⟩
    · rw [Function.update_noteq hc]
      by_cases hp : p = P
      · subst hp
        rw [Function.update_same, ← h.2 c p]
        simp [hc]
      · rw [Function.update_noteq hp]; exact h.2 c p

theorem singleParent_removeChild (s s1 : Scene R M) (P C : ObjId) (h : SingleParent s)
    (hpar : s.parent_ C = some P)
    (hch : s1.children_ = Function.update s.children_ P ((s.children_ P).filter (· ≠ C)))
    (hpa : s1.parent_ = Function.update s.parent_ C none) : SingleParent s1 := by
  constructor
  · intro p
    rw [hch]
    by_cases hp : p = P
    · subst hp
      rw [Function.update_same]
      exact List.Nodup.filter _ (h.1 p)
    · rw [Function.update_noteq hp]; exact h.1 p
  · intro c p
    rw [hch, hpa]
    by_cases hc : c = C
    · subst hc
      rw [Function.update_same]
      by_cases hp : p = P
      · subst hp
        rw [Function.update_same]
        simp
      · rw [Function.update_noteq hp, h.2 c p, hpar]
        exact ⟨fun e => absurd (Option.some.inj e).symm hp, fun e => Option.noConfusion e⟩
    · rw [Function.update_noteq hc]
      by_cases hp : p = P
      · subst hp
        rw [Function.update_same, ← h.2 c p]
        simp [hc]
      · rw [Function.update_noteq hp]; exact h.2 c p

/-- Claim C18, amended: in every heap reachable from freshly created objects by
`removeChildObject` calls and by `addChildObject` calls whose child has no parent at the
time of the call, each object occurs at most once in a children sequence and in at most
one of them, and its parent reference is `P` exactly when it occurs in the children
sequence of `P`. -/
theorem single_parent_ownership (s : Scene R M) (h : TreeReachableUnparented s) :
    SingleParent s ∧
    (∀ c p q, c ∈ s.children_ p → c ∈ s.children_ q → p = q) := by
  have hsp : SingleParent s := by
    induction h with
    | fresh s hf =>
      refine ⟨fun p => by rw [hf.2.1 p]; exact List.nodup_nil, fun c p => ?_⟩
      rw [hf.2.1 p, hf.1 c]
      exact ⟨fun hm => absurd hm (List.not_mem_nil c), fun e => Option.noConfusion e⟩
    | addChild fuel s P C s1 _ hpar hadd ih =>
      obtain ⟨hch, hpa, _⟩ := addChildObject_ret fuel s s1 P C hadd
      exact singleParent_addChild s s1 P C ih hpar hch hpa
    | removeChild fuel s P C s1 _ hrem ih =>
      obtain ⟨h1, h2, _⟩ := removeChildObject_some fuel s s1 P C hrem
      by_cases hpc : s.parent_ C = some P
      · exact singleParent_removeChild s s1 P C ih hpc (h1 hpc).1 (h1 hpc).2
      · obtain ⟨hch, hpa⟩ := h2 hpc
        exact ⟨fun p => hch ▸ ih.1 p, fun c p => by rw [hch, hpa]; exact ih.2 c p⟩
  refine ⟨hsp, ?_⟩
  intro c p q hp hq
  have e1 := (hsp.2 c p).mp hp
  have e2 := (hsp.2 c q).mp hq
  rw [e1] at e2
  exact Option.some.inj e2

/-- Witness for the amended C18: fresh objects after `addChildObject(0, 2)`. -/
theorem single_parent_ownership_witness :
    ∃ s : Scene ℤ Unit, addChildObject 1 scene0 0 0 2 = .ret () s ∧ SingleParent s ∧
      (∀ c p q, c ∈ s.children_ p → c ∈ s.children_ q → p = q) :=
  ⟨_, rfl, single_parent_ownership _
    (TreeReachableUnparented.addChild 1 scene0 0 2 _
      (TreeReachableUnparented.fresh scene0 scene0_isFresh) rfl rfl)⟩

end Ownership

end GVRf

namespace GVRf

section AddChild

variable {R M : Type}

theorem cycleLoop_false (s : Scene R M) (C : ObjId) :
    ∀ (K : Nat) (o : Option ObjId), o.bind (fun p => nthParent s p K) = none →
      (∀ k, o.bind (fun p => nthParent s p k) ≠ some C) →
      ∀ fuel, K < fuel → cycleLoop s C fuel o = some false := by
  intro K
  induction K with
  | zero =>
    intro o hend _ fuel hf
    obtain ⟨f, rfl⟩ : ∃ f, fuel = f + 1 := ⟨fuel - 1, by omega⟩
    cases o with
    | none => rfl
    | some p => simp [nthParent] at hend
  | succ K ih =>
    intro o hend hnot fuel hf
    obtain ⟨f, rfl⟩ : ∃ f, fuel = f + 1 := ⟨fuel - 1, by omega⟩
    cases o with
    | none => rfl
    | some p =>
      have hCp : ¬ C = p := by
        intro e
        have := hnot 0
        simp [nthParent, e] at this
      simp only [cycleLoop, if_neg hCp]
      refine ih (s.parent_ p) ?_ ?_ f (by omega)
      · have := hend
        simp only [Option.some_bind, nthParent_succ] at this
        exact this
      · intro k
        have := hnot (k + 1)
        simp only [Option.some_bind, nthParent_succ] at this
        exact this

theorem chainEnds_of_chain_end (s : Scene R M) :
    ∀ (K : Nat) (n : ObjId), nthParent s n (K + 1) = none → chainEnds s (K + 1) n = true := by
  intro K
  induction K with
  | zero =>
    intro n h
    rw [nthParent_succ] at h
    cases hq : s.parent_ n with
    | none => simp [chainEnds, hq]
    | some q => rw [hq] at h; simp [nthParent] at h
  | succ K ih =>
    intro n h
    rw [nthParent_succ] at h
    cases hq : s.parent_ n with
    | none => simp [chainEnds, hq]
    | some q =>
      rw [hq] at h
      have hq2 := ih q (by simpa using h)
      rw [chainEnds, hq]
      simp only [hq2, Bool.or_true]

theorem nthParent_congr (s s3 : Scene R M) (n : ObjId)
    (hsame : ∀ k a, nthParent s n k = some a → s3.parent_ a = s.parent_ a) :
    ∀ k, nthParent s3 n k = nthParent s n k := by
  intro k
  induction k with
  | zero => rfl
  | succ k ih =>
    rw [nthParent, nthParent, ih]
    cases ha : nthParent s n k with
    | none => rfl
    | some a => simp only [Option.some_bind, hsame k a ha]

theorem dirty_self_loop (s : Scene R M) (n : ObjId) (h : s.parent_ n = some n) (fuel : Nat)
    (hf : 2 ≤ fuel) : ∃ s1, dirtyHierarchicalBoundingVolume fuel s n = some s1 := by
  obtain ⟨f, rfl⟩ : ∃ f, fuel = f + 2 := ⟨fuel - 2, by omega⟩
  by_cases hd : s.bounding_volume_dirty_ n = true
  · exact ⟨s, by simp [dirtyHierarchicalBoundingVolume, hd]⟩
  · have hd0 : s.bounding_volume_dirty_ n = false := by simpa using hd
    refine ⟨{ s with
      bounding_volume_dirty_ := Function.update s.bounding_volume_dirty_ n true }, ?_⟩
    simp [dirtyHierarchicalBoundingVolume, hd0, h]

theorem getChildByIndex_of_getElem (w : Nat) (s : Scene R M) (this : ObjId) (n : Nat)
    (c : ObjId) (h : (s.children_ this)[n]? = some c) (hn : (n : Int) < 2 ^ w) :
    getChildByIndex w s this n = .ret c s := by
  have hu : ((n : Int) % 2 ^ w).toNat = n := by
    rw [Int.emod_eq_of_lt (Int.natCast_nonneg n) hn]
    exact Int.toNat_natCast n
  obtain ⟨hlt, hget⟩ := List.getElem?_eq_some.mp h
  have hlt2 : ((n : Int) % 2 ^ w).toNat < (s.children_ this).length := by rw [hu]; exact hlt
  simp only [getChildByIndex, dif_pos hlt2]
  congr 1
  simp only [List.get_eq_getElem, hu]
  exact hget

/-- Claim C12 (addChild success postcondition): when `C` is not among the ancestors of `P`,
on a heap where the parent chain of `P` ends and no dirty object has a clean parent,
`addChildObject(P, C)` returns normally (with any fuel above the chain length plus one);
afterwards the children sequence of `P` is the old one with `C` appended, the other
sequences are unchanged, the count is one more, `getChildByIndex(old count)` is `C`, the
parent reference of `C` is `P`, and `P` and every ancestor of `P` are dirty. -/
theorem addChildObject_success (w : Nat) (s : Scene R M) (P C : ObjId) (K : Nat)
    (hnot : ∀ k, nthParent s P (k + 1) ≠ some C)
    (hend : nthParent s P (K + 1) = none)
    (hinv : ClosedOutside (fun _ => False) s)
    (hw : ((s.children_ P).length : Int) < 2 ^ w)
    (fuel : Nat) (hfuel : K + 1 < fuel) :
    ∃ s1, addChildObject fuel s P P C = .ret () s1 ∧
      s1.children_ P = s.children_ P ++ [C] ∧
      (∀ n, n ≠ P → s1.children_ n = s.children_ n) ∧
      (s1.children_ P).length = (s.children_ P).length + 1 ∧
      getChildByIndex w s1 P (s.children_ P).length = .ret C s1 ∧
      s1.parent_ C = some P ∧
      (∀ k a, nthParent s1 P k = some a → s1.bounding_volume_dirty_ a = true) := by
  have hcyc : cycleLoop s C fuel (s.parent_ P) = some false := by
    refine cycleLoop_false s C K (s.parent_ P) ?_ ?_ fuel (by omega)
    · rw [← nthParent_succ]; exact hend
    · intro k; rw [← nthParent_succ]; exact hnot k
  have key : ∀ s3 : Scene R M, s3.parent_ = Function.update s.parent_ C (some P) →
      ∃ s1, (match dirtyHierarchicalBoundingVolume fuel s3 P with
        | none => (Outcome.noFuel : Outcome (Scene R M) Unit)
        | some s4 => .ret () s4) = .ret () s1 := by
    intro s3 hpa
    have hdw : ∃ s4, dirtyHierarchicalBoundingVolume fuel s3 P = some s4 := by
      by_cases hCP : C = P
      · refine dirty_self_loop s3 P ?_ fuel (by omega)
        rw [hpa, hCP, Function.update_same]
      · have hsame : ∀ k a, nthParent s P k = some a → s3.parent_ a = s.parent_ a := by
          intro k a ha
          have haC : a ≠ C := by
            intro e
            cases k with
            | zero =>
              have : P = a := by simpa [nthParent] using ha
              exact hCP (e ▸ this).symm
            | succ k => exact hnot k (e ▸ ha)
          rw [hpa, Function.update_noteq haC]
        have hend3 : nthParent s3 P (K + 1) = none := by
          rw [nthParent_congr s s3 P hsame]; exact hend
        obtain ⟨d, hd, _⟩ := dirty_returns fuel s3 P
          (chainEnds_le s3 (K + 1) P (chainEnds_of_chain_end s3 K P hend3) fuel (by omega))
        exact ⟨_, hd⟩
    obtain ⟨s4, h4⟩ := hdw
    exact ⟨s4, by rw [h4]⟩
  have hex : ∃ s1, addChildObject fuel s P P C = .ret () s1 := by
    unfold addChildObject
    rw [hcyc]
    dsimp only
    cases ht : s.transform_ C with
    | none => exact key _ (by rfl)
    | some t => exact key _ (by rfl)
  obtain ⟨s1, h1⟩ := hex
  obtain ⟨hch, hpa, _, hdP, hcl⟩ := addChildObject_ret fuel s s1 P C h1
  have hchP : s1.children_ P = s.children_ P ++ [C] := by
    rw [hch, Function.update_same]
  refine ⟨s1, h1, hchP, ?_, ?_, ?_, ?_, ?_⟩
  · intro n hn
    rw [hch, Function.update_noteq hn]
  · rw [hchP]; simp
  · refine getChildByIndex_of_getElem w s1 P _ C ?_ hw
    rw [hchP]; simp
  · rw [hpa, Function.update_same]
  · exact ancestors_dirty s1 (hcl hinv) P hdP

/-- Witness for C12: fresh objects, `addChildObject(0, 2)`, a 32-bit size. -/
theorem addChildObject_success_witness :
    ∃ s1, addChildObject 2 scene0 0 0 2 = .ret () s1 ∧
      s1.children_ 0 = scene0.children_ 0 ++ [2] ∧
      (∀ n, n ≠ 0 → s1.children_ n = scene0.children_ n) ∧
      (s1.children_ 0).length = (scene0.children_ 0).length + 1 ∧
      getChildByIndex 32 s1 0 (scene0.children_ 0).length = .ret 2 s1 ∧
      s1.parent_ 2 = some 0 ∧
      (∀ k a, nthParent s1 0 k = some a → s1.bounding_volume_dirty_ a = true) :=
  addChildObject_success 32 scene0 0 2 0
    (fun k h => by rw [nthParent_succ] at h; exact Option.noConfusion h)
    rfl (fun _ _ _ _ _ => rfl) (by norm_num [scene0, Scene.fresh]) 2 (by decide)

end AddChild

end GVRf

namespace GVRf

section Steps

variable {R M : Type}

end Steps

end GVRf

namespace GVRf

section CleanSteps

variable {R M : Type}

theorem Cleans.parent {s s1 : Scene R M} (h : Cleans s s1) : s1.parent_ = s.parent_ := by
  obtain ⟨d, t, m, rfl⟩ := h.1
  rfl

end CleanSteps

end GVRf

namespace GVRf

section Monotonicity

variable {R M : Type}

end Monotonicity

end GVRf

namespace GVRf

section Examples

/-- Witness for the amended C14: object 0 of the fresh heap, whose slots are all empty. -/
theorem detach_empty_slot_witness :
    detachCamera scene0 0 = scene0 ∧ detachCameraRig scene0 0 = scene0 ∧
    detachEyePointeeHolder scene0 0 = scene0 ∧
    (∃ d, detachTransform 1 scene0 0 = some { scene0 with bounding_volume_dirty_ := d } ∧
      (∀ m, scene0.bounding_volume_dirty_ m = true → d m = true) ∧ d 0 = true ∧
      (scene0.bounding_volume_dirty_ 0 = true → d = scene0.bounding_volume_dirty_)) ∧
    (∃ d, detachRenderData 1 scene0 0 = some { scene0 with bounding_volume_dirty_ := d } ∧
      (∀ m, scene0.bounding_volume_dirty_ m = true → d m = true) ∧ d 0 = true ∧
      (scene0.bounding_volume_dirty_ 0 = true → d = scene0.bounding_volume_dirty_)) :=
  ⟨(detach_empty_slot scene0 0).1 rfl, (detach_empty_slot scene0 0).2.1 rfl,
    (detach_empty_slot scene0 0).2.2.1 rfl, (detach_empty_slot scene0 0).2.2.2.1 rfl 1 rfl,
    (detach_empty_slot scene0 0).2.2.2.2 rfl 1 rfl⟩

/-- Witness for C19: the cube with corners 20 and 30 lies beyond the plane `x < 10` of
`frustum10`, and the test returns false. -/
theorem is_cube_in_frustum_false_iff_witness :
    is_cube_in_frustum frustum10 (cube 20 30) = false ∧
    ∃ p : Fin 6, PlaneRejects frustum10 (cube 20 30) p :=
  ⟨by decide, (is_cube_in_frustum_false_iff frustum10 (cube 20 30)).1.mp (by decide)⟩

end Examples

end GVRf
